import Mathlib

/-!
KServe raw-deployment reconcilers: autoscaling policy resolution and convergence

A shallow embedding of
`pkg/controller/v1beta1/inferenceservice/reconcilers/hpa/hpa_reconciler.go`
(`getHPAMetrics`, `createHPA`, `checkHPAExist`, `semanticHPAEquals`,
`HPAReconciler.Reconcile`) and of
`pkg/controller/v1alpha1/inferencegraph/raw_ig.go`
(`createInferenceGraphPodSpec`, `constructGraphObjectMeta`,
`handleInferenceGraphRawDeployment`, `PropagateRawStatus`), together with the
library routines they call (`strconv.ParseInt`, `strconv.Atoi`, Go's
`int32(...)` conversion, `encoding/json` on the graph spec), followed by
theorems about them.

Conventions.
* Go machine integers are mathematical integers (`Int`); every narrowing
  conversion `int32(x)` of the source is the explicit wrap-around `int32`.
* A Go `map[string]string` is `StringMap`: `none` is the nil map, `some es`
  holds the entries; `m[k]` with the comma-ok form is `mapLookup`.
* A Go pointer that may be nil is an `Option`; dereferencing nil (a run-time
  panic) makes the enclosing function return `none`.
-/

namespace KServe

/-! ## Machine integers and `strconv` -/

/-- Go conversion `int32(x)` of a wider signed integer: keeps the low 32 bits,
read as a two's-complement number. -/
def int32 (x : Int) : Int := (x + 2147483648) % 4294967296 - 2147483648

/-- The two error kinds of `strconv.NumError` (`strconv.ErrSyntax`, `strconv.ErrRange`). -/
inductive NumError where
  | ErrSyntax
  | ErrRange
  deriving DecidableEq, Repr

/-- Largest `uint64`, the `maxVal` of `strconv.ParseUint(s, 10, 64)`. -/
def maxUint64 : Nat := 18446744073709551615

/-- The digit loop of `strconv.ParseUint(s, 10, 64)`, with `n` the value
accumulated so far. A byte that is not a decimal digit ends the loop with a
syntax error and value 0; an overflow of `n * 10` or of `n + d` ends it with a
range error and value `maxVal`. (Go walks bytes; every byte of a non-ASCII
character is rejected like the character itself.) -/
def parseUintLoop : List Char → Nat → Nat × Option NumError
  | [], n => (n, none)
  | ch :: rest, n =>
    if ch.isDigit then
      let d := ch.toNat - 48
      -- cutoff = maxUint64/10 + 1: n*base overflows
      if n ≥ maxUint64 / 10 + 1 then (maxUint64, some NumError.ErrRange)
      else
        let n10 := n * 10
        let n1 := (n10 + d) % (maxUint64 + 1)
        if n1 < n10 ∨ n1 > maxUint64 then (maxUint64, some NumError.ErrRange)
        else parseUintLoop rest n1
    else (0, some NumError.ErrSyntax)

/-- Go `strconv.ParseUint(s, 10, 64)` on the bytes of `s`. -/
def ParseUint (s : List Char) : Nat × Option NumError :=
  match s with
  | [] => (0, some NumError.ErrSyntax)
  | _ => parseUintLoop s 0

/-- Go `strconv.ParseInt(s, 10, 64)`: the returned value and the error
(`none` is Go's `err == nil`). -/
def ParseInt (s : String) : Int × Option NumError :=
  match s.data with
  | [] => (0, some NumError.ErrSyntax)
  | c :: rest =>
    let neg := c == '-'
    let body := if c == '+' ∨ c == '-' then rest else c :: rest
    let r := ParseUint body
    let un := r.1
    if r.2 = some NumError.ErrSyntax then (0, some NumError.ErrSyntax)
    else if ¬ neg ∧ un ≥ 9223372036854775808 then
      (9223372036854775807, some NumError.ErrRange)
    else if neg ∧ un > 9223372036854775808 then
      (-9223372036854775808, some NumError.ErrRange)
    else (if neg then -(un : Int) else (un : Int), none)

/-- The fast-path loop of `strconv.Atoi`: `none` is the syntax error. -/
def atoiFastLoop : List Char → Int → Option Int
  | [], n => some n
  | ch :: rest, n =>
    if ch.isDigit then atoiFastLoop rest (n * 10 + ((ch.toNat - 48 : Nat) : Int))
    else none

/-- Go `strconv.Atoi(s)` on a 64-bit platform: strings of 1 to 18 bytes take the
fast path, all others go through `ParseInt(s, 10, 0)`. The value is returned
also when the error is not nil (0 on a syntax error, the nearest `int64` on a
range error). -/
def Atoi (s : String) : Int × Option NumError :=
  let sLen := s.utf8ByteSize
  if 0 < sLen ∧ sLen < 19 then
    match s.data with
    | [] => (0, some NumError.ErrSyntax)
    | c :: rest =>
      let body := if c == '-' ∨ c == '+' then rest else c :: rest
      if body.length < 1 then (0, some NumError.ErrSyntax)
      else
        match atoiFastLoop body 0 with
        | none => (0, some NumError.ErrSyntax)
        | some n => (if c == '-' then -n else n, none)
  else ParseInt s

/-! ## Maps -/

/-- Go `map[string]string`; `none` is the nil map. In `some es` the first entry
for a key is the binding of that key. -/
abbrev StringMap := Option (List (String × String))

/-- Go `v, ok := m[k]`: `some v` when `ok`, `none` otherwise (also on a nil map). -/
def mapLookup (m : StringMap) (k : String) : Option String :=
  match m with
  | none => none
  | some es => es.lookup k

/-! ## Constants of `pkg/constants` -/

/-- Modelled from the spec: the package `pkg/constants` is not among the
sources, so the constants the reconciler reads are parameters: the
target-utilization override annotation, the graph-identity label, the
graph-specific target / metric / min-scale / max-scale annotations, the global
floor (`DefaultMinReplicas`), the fixed default utilization
(`DefaultCPUUtilization`, a typed `int32` constant) and the name of the
header-propagation environment variable. -/
structure Constants where
  TargetUtilizationPercentage : String
  InferenceGraphLabel : String
  InferenceGraphTargetAnnotationKey : String
  InferenceGraphMetricsAnnotationKey : String
  InferenceGraphMinScaleAnnotationKey : String
  InferenceGraphMaxScaleAnnotationKey : String
  DefaultMinReplicas : Int
  DefaultCPUUtilization : Int
  RouterHeadersPropagateEnvVar : String
  deriving Repr

/-- The values these constants have in KServe (the annotation keys are the
ones quoted in the comment of `createHPA`, the label key and the variable name
are the ones the repository's tests expect). Used for concrete evaluations. -/
def kserveConstants : Constants where
  TargetUtilizationPercentage := "serving.kserve.io/targetUtilizationPercentage"
  InferenceGraphLabel := "serving.kserve.io/inferencegraph"
  InferenceGraphTargetAnnotationKey := "serving.kserve.io/target"
  InferenceGraphMetricsAnnotationKey := "serving.kserve.io/metric"
  InferenceGraphMinScaleAnnotationKey := "serving.kserve.io/min-scale"
  InferenceGraphMaxScaleAnnotationKey := "serving.kserve.io/max-scale"
  DefaultMinReplicas := 1
  DefaultCPUUtilization := 80
  RouterHeadersPropagateEnvVar := "PROPAGATE_HEADERS"

/-! ## API objects -/

/-- An entry of `metav1.ObjectMeta.OwnerReferences`. -/
structure OwnerReference where
  Kind : String
  Name : String
  Controller : Bool
  deriving DecidableEq, Repr

/-- The identity block `metav1.ObjectMeta`: name, namespace, labels,
annotations, and the server-managed fields a live object carries. -/
structure ObjectMeta where
  Name : String
  Namespace : String
  Labels : StringMap
  Annotations : StringMap
  ResourceVersion : String := ""
  OwnerReferences : List OwnerReference := []
  deriving DecidableEq, Repr

/-- Modelled from the spec: the declaration of `v1beta1.ComponentExtensionSpec`
is not among the sources; the spec lists its fields min-replicas (optional),
max-replicas, scale-target (optional) and scale-metric (optional). In KServe
the integer fields are declared with Go's `int` (`MinReplicas *int`,
`MaxReplicas int`, `ScaleTarget *int`), which is why the source narrows each
with `int32(...)`; here they are integers, narrowed where the source narrows. -/
structure ComponentExtensionSpec where
  MinReplicas : Option Int
  MaxReplicas : Int
  ScaleTarget : Option Int
  ScaleMetric : Option String
  deriving DecidableEq, Repr

/-- The value of a `resource.Quantity`; `equality.Semantic` compares
quantities by value. -/
abbrev Quantity := ℚ

/-- Type `autoscalingv2.CrossVersionObjectReference`. -/
structure CrossVersionObjectReference where
  Kind : String
  Name : String
  APIVersion : String
  deriving DecidableEq, Repr

/-- Type `autoscalingv2.MetricTarget`. -/
structure MetricTarget where
  Type_ : String
  Value : Option Quantity := none
  AverageValue : Option Quantity := none
  AverageUtilization : Option Int := none
  deriving DecidableEq, Repr

/-- Type `autoscalingv2.ResourceMetricSource`. -/
structure ResourceMetricSource where
  Name : String
  Target : MetricTarget
  deriving DecidableEq, Repr

/-- Type `autoscalingv2.MetricSpec`, with the resource source (the only kind of
source this program builds). -/
structure MetricSpec where
  Type_ : String
  Resource : Option ResourceMetricSource := none
  deriving DecidableEq, Repr

/-- Type `autoscalingv2.HPAScalingPolicy`. -/
structure HPAScalingPolicy where
  Type_ : String
  Value : Int
  PeriodSeconds : Int
  deriving DecidableEq, Repr

/-- Type `autoscalingv2.HPAScalingRules`. -/
structure HPAScalingRules where
  StabilizationWindowSeconds : Option Int := none
  SelectPolicy : Option String := none
  Policies : List HPAScalingPolicy := []
  deriving DecidableEq, Repr

/-- Type `autoscalingv2.HorizontalPodAutoscalerBehavior`; the empty block has
both rules nil. -/
structure HorizontalPodAutoscalerBehavior where
  ScaleUp : Option HPAScalingRules := none
  ScaleDown : Option HPAScalingRules := none
  deriving DecidableEq, Repr

/-- Type `autoscalingv2.HorizontalPodAutoscalerSpec`. -/
structure HorizontalPodAutoscalerSpec where
  ScaleTargetRef : CrossVersionObjectReference
  MinReplicas : Option Int
  MaxReplicas : Int
  Metrics : List MetricSpec
  Behavior : Option HorizontalPodAutoscalerBehavior
  deriving DecidableEq, Repr

/-- Type `autoscalingv2.HorizontalPodAutoscalerStatus` (server-written). -/
structure HorizontalPodAutoscalerStatus where
  ObservedGeneration : Option Int := none
  CurrentReplicas : Int := 0
  DesiredReplicas : Int := 0
  deriving DecidableEq, Repr

/-- Type `autoscalingv2.HorizontalPodAutoscaler`. -/
structure HorizontalPodAutoscaler where
  ObjectMeta : ObjectMeta
  Spec : HorizontalPodAutoscalerSpec
  Status : HorizontalPodAutoscalerStatus := {}
  deriving DecidableEq, Repr

/-- The constant `corev1.ResourceCPU`. -/
def ResourceCPU : String := "cpu"

/-- The constant `autoscalingv2.ResourceMetricSourceType`. -/
def ResourceMetricSourceType : String := "Resource"

/-! ## `getHPAMetrics` and `createHPA` -/

/-- Source function `getHPAMetrics` (hpa_reconciler.go, lines 56-106). The result is `none`
exactly when the source dereferences a nil `componentExt`. -/
def getHPAMetrics (c : Constants) (metadata : ObjectMeta)
    (componentExt : Option ComponentExtensionSpec) : Option (List MetricSpec) :=
  let labels := metadata.Labels
  let annotations := metadata.Annotations
  let resourceName : String := ResourceCPU
  let utilization : Int :=
    match mapLookup annotations c.TargetUtilizationPercentage with
    | some value => int32 (Atoi value).1
    | none => c.DefaultCPUUtilization
  let resolved : Option (Int × String) :=
    match mapLookup labels c.InferenceGraphLabel with
    | some _ =>
      -- if target annotation exists
      let utilization :=
        match mapLookup annotations c.InferenceGraphTargetAnnotationKey with
        | some target =>
          if (ParseInt target).2 = none then int32 (ParseInt target).1 else utilization
        | none => utilization
      -- if metric annotation exists
      let resourceName :=
        match mapLookup annotations c.InferenceGraphMetricsAnnotationKey with
        | some metric => metric
        | none => resourceName
      some (utilization, resourceName)
    | none =>
      match componentExt with
      | none => none
      | some ext =>
        let utilization :=
          match ext.ScaleTarget with
          | some t => int32 t
          | none => utilization
        let resourceName :=
          match ext.ScaleMetric with
          | some m => m
          | none => resourceName
        some (utilization, resourceName)
  match resolved with
  | none => none
  | some (utilization, resourceName) =>
    let metricTarget : MetricTarget :=
      { Type_ := "Utilization", AverageUtilization := some utilization }
    let ms : MetricSpec :=
      { Type_ := ResourceMetricSourceType,
        Resource := some { Name := resourceName, Target := metricTarget } }
    some [ms]

/-- Source function `createHPA` (hpa_reconciler.go, lines 108-172). The result is `none`
exactly when the source dereferences a nil `componentExt`. The conversion
`int32(constants.DefaultMinReplicas)` of a constant is the constant itself (Go
rejects at compile time a constant conversion that does not fit). -/
def createHPA (c : Constants) (componentMeta : ObjectMeta)
    (componentExt : Option ComponentExtensionSpec) : Option HorizontalPodAutoscaler :=
  let minReplicas : Int := c.DefaultMinReplicas
  let maxReplicas : Int := 0
  let annotations := componentMeta.Annotations
  let labels := componentMeta.Labels
  let raw : Option (Int × Int) :=
    match mapLookup labels c.InferenceGraphLabel with
    | some _ =>
      -- if min-scale annotation exists
      let minReplicas :=
        match mapLookup annotations c.InferenceGraphMinScaleAnnotationKey with
        | some min => if (ParseInt min).2 = none then int32 (ParseInt min).1 else minReplicas
        | none => minReplicas
      -- if max-scale annotation exists
      let maxReplicas :=
        match mapLookup annotations c.InferenceGraphMaxScaleAnnotationKey with
        | some max => if (ParseInt max).2 = none then int32 (ParseInt max).1 else maxReplicas
        | none => maxReplicas
      some (minReplicas, maxReplicas)
    | none =>
      -- For inference service kinds source replica info from componentExt spec
      match componentExt with
      | none => none
      | some ext =>
        let minReplicas :=
          match ext.MinReplicas with
          | some m => int32 m
          | none => minReplicas
        some (minReplicas, int32 ext.MaxReplicas)
  match raw with
  | none => none
  | some (minReplicas, maxReplicas) =>
    -- Defaults check
    let minReplicas := if minReplicas < c.DefaultMinReplicas then c.DefaultMinReplicas else minReplicas
    -- max cannot be less than min
    let maxReplicas := if maxReplicas < minReplicas then minReplicas else maxReplicas
    match getHPAMetrics c componentMeta componentExt with
    | none => none
    | some metrics =>
      some
        { ObjectMeta := componentMeta,
          Spec :=
            { ScaleTargetRef :=
                { APIVersion := "apps/v1", Kind := "Deployment", Name := componentMeta.Name },
              MinReplicas := some minReplicas,
              MaxReplicas := maxReplicas,
              Metrics := metrics,
              Behavior := some {} } }

/-! ## The cluster client and `HPAReconciler` -/

/-- An error returned by a client call, with the classification the program
asks for (`apierr.IsNotFound(err)`). -/
structure APIError where
  IsNotFound : Bool
  Message : String
  deriving DecidableEq, Repr

/-- Type `types.NamespacedName`. -/
structure NamespacedName where
  Namespace : String
  Name : String
  deriving DecidableEq, Repr

/-- Outcome of a write call (`Create`, `Update`): the returned error (`none` is
nil), the contents of the passed object after the call (the client writes the
server's answer back into it), and the cluster state after the call. -/
structure WriteResult (σ : Type) where
  err : Option APIError
  obj : HorizontalPodAutoscaler
  state : σ

/-- The part of `client.Client` the reconciler uses, over an arbitrary cluster
state `σ`. `Get` either fails or yields the live object. -/
structure Client (σ : Type) where
  Get : NamespacedName → σ → Except APIError HorizontalPodAutoscaler × σ
  Create : HorizontalPodAutoscaler → σ → WriteResult σ
  Update : HorizontalPodAutoscaler → σ → WriteResult σ

/-- A client call as issued by the reconciler, with its argument. -/
inductive ClientCall where
  | Get (key : NamespacedName)
  | Create (obj : HorizontalPodAutoscaler)
  | Update (obj : HorizontalPodAutoscaler)
  deriving DecidableEq, Repr

/-- The cluster state together with the calls issued so far, oldest first. -/
structure World (σ : Type) where
  state : σ
  calls : List ClientCall

/-- Modelled from the spec: `constants.CheckResultType` is not among the
sources; the spec names the decision values Create, Update, NoOp (`Existed`)
and Unknown-error. -/
inductive CheckResultType where
  | CheckResultCreate
  | CheckResultUpdate
  | CheckResultExisted
  | CheckResultUnknown
  deriving DecidableEq, Repr

/-- Type `HPAReconciler` (the `scheme` field, used only to attach owner references,
is left out). -/
structure HPAReconciler (σ : Type) where
  client : Client σ
  HPA : HorizontalPodAutoscaler
  componentExt : Option ComponentExtensionSpec

/-- Source function `NewHPAReconciler`; `none` when `createHPA` dereferences nil. -/
def NewHPAReconciler {σ : Type} (c : Constants) (client : Client σ)
    (componentMeta : ObjectMeta) (componentExt : Option ComponentExtensionSpec) :
    Option (HPAReconciler σ) :=
  match createHPA c componentMeta componentExt with
  | none => none
  | some hpa => some { client := client, HPA := hpa, componentExt := componentExt }

/-- Source function `semanticHPAEquals`: `equality.Semantic.DeepEqual` on the two specs.
On this model (nil and empty slices are the same list, quantities are their
values) semantic equality is equality of the `Spec` values. -/
def semanticHPAEquals (desired existing : HorizontalPodAutoscaler) : Bool :=
  decide (desired.Spec = existing.Spec)

/-- Source method `checkHPAExist`: the decision, the live object (nil unless found) and the
error, with the world after the `Get` call. -/
def HPAReconciler.checkHPAExist {σ : Type} (r : HPAReconciler σ) (client : Client σ)
    (w : World σ) :
    (CheckResultType × Option HorizontalPodAutoscaler × Option APIError) × World σ :=
  -- get hpa
  let key : NamespacedName :=
    { Namespace := r.HPA.ObjectMeta.Namespace, Name := r.HPA.ObjectMeta.Name }
  let got := client.Get key w.state
  let w1 : World σ := { state := got.2, calls := w.calls ++ [ClientCall.Get key] }
  match got.1 with
  | Except.error err =>
    if err.IsNotFound then ((CheckResultType.CheckResultCreate, none, none), w1)
    else ((CheckResultType.CheckResultUnknown, none, some err), w1)
  | Except.ok existingHPA =>
    -- existed, check equivalent
    if semanticHPAEquals r.HPA existingHPA then
      ((CheckResultType.CheckResultExisted, some existingHPA, none), w1)
    else ((CheckResultType.CheckResultUpdate, some existingHPA, none), w1)

/-- What `Reconcile` hands back: the returned object (`none` is nil), the
returned error (`none` is nil) and the world it leaves behind. -/
structure ReconcileResult (σ : Type) where
  hpa : Option HorizontalPodAutoscaler
  err : Option APIError
  world : World σ

/-- Source method `HPAReconciler.Reconcile` (hpa_reconciler.go, lines 201-226). After a
successful write the method returns `r.HPA`, the object it passed to the
client, with the contents the call left in it. -/
def HPAReconciler.Reconcile {σ : Type} (r : HPAReconciler σ) (w : World σ) :
    ReconcileResult σ :=
  let checked := r.checkHPAExist r.client w
  let checkResult := checked.1.1
  let existingHPA := checked.1.2.1
  let w1 := checked.2
  match checked.1.2.2 with
  | some err => { hpa := none, err := some err, world := w1 }
  | none =>
    if checkResult = CheckResultType.CheckResultCreate then
      let res := r.client.Create r.HPA w1.state
      let w2 : World σ := { state := res.state, calls := w1.calls ++ [ClientCall.Create r.HPA] }
      match res.err with
      | some err => { hpa := none, err := some err, world := w2 }
      | none => { hpa := some res.obj, err := none, world := w2 }
    else if checkResult = CheckResultType.CheckResultUpdate then
      let res := r.client.Update r.HPA w1.state
      let w2 : World σ := { state := res.state, calls := w1.calls ++ [ClientCall.Update r.HPA] }
      match res.err with
      | some err => { hpa := none, err := some err, world := w2 }
      | none => { hpa := some res.obj, err := none, world := w2 }
    else { hpa := existingHPA, err := none, world := w1 }

/-! ## The inference-graph raw deployment (`raw_ig.go`) -/

/-- Go `m[k] = v` on the entries of a non-nil map: the old binding of `k`, if
any, goes and the new one is there. -/
def mapSet (es : List (String × String)) (k v : String) : List (String × String) :=
  (k, v) :: es.filter (fun e => e.1 != k)

/-- Source function `constructGraphObjectMeta` (raw_ig.go, lines 84-105). A nil map is
replaced by a fresh empty one, then the graph label is written into the
labels. -/
def constructGraphObjectMeta (c : Constants) (name : String) (namespace_ : String)
    (annotations : StringMap) (labels : StringMap) : ObjectMeta :=
  let annotations : List (String × String) :=
    match annotations with
    | none => []
    | some es => es
  let labels : List (String × String) :=
    match labels with
    | none => []
    | some es => es
  let labels := mapSet labels c.InferenceGraphLabel name
  { Name := name, Namespace := namespace_, Labels := some labels,
    Annotations := some annotations }

/-- Type `appsv1.DeploymentCondition`. -/
structure DeploymentCondition where
  Type_ : String
  Status : String
  Reason : String := ""
  Message : String := ""
  deriving DecidableEq, Repr

/-- Type `appsv1.DeploymentStatus`. -/
structure DeploymentStatus where
  ObservedGeneration : Int := 0
  Replicas : Int := 0
  AvailableReplicas : Int := 0
  Conditions : List DeploymentCondition := []
  deriving DecidableEq, Repr

/-- Type `appsv1.Deployment`, the live workload as the status propagation sees it. -/
structure Deployment where
  ObjectMeta : ObjectMeta
  Status : DeploymentStatus := {}
  deriving DecidableEq, Repr

/-- Type `apis.Condition` of knative. -/
structure Condition where
  Type_ : String
  Status : String
  Severity : String := ""
  Reason : String := ""
  Message : String := ""
  deriving DecidableEq, Repr

/-- Modelled from the spec: the declaration of `v1alpha1.InferenceGraphStatus`
is not among the sources; the spec gives it an observed-generation counter, a
set of typed conditions (both from the embedded knative `duckv1.Status`, whose
`SetConditions` stores the given list) and the readiness URL, a pointer. -/
structure InferenceGraphStatus where
  ObservedGeneration : Int := 0
  Conditions : List Condition := []
  Annotations : StringMap := none
  URL : Option String := none
  deriving DecidableEq, Repr

/-- The constant `appsv1.DeploymentAvailable`. -/
def DeploymentAvailable : String := "Available"

/-- The constant `apis.ConditionReady`. -/
def ConditionReady : String := "Ready"

/-- The constant `v1.ConditionTrue`. -/
def ConditionTrue : String := "True"

/-- The loop of `PropagateRawStatus` over the deployment's conditions: at the
first condition of type available the URL and the conditions of the graph
status are set and the loop is left. -/
def propagateAvailable (graphStatus : InferenceGraphStatus) (url : Option String) :
    List DeploymentCondition → InferenceGraphStatus
  | [] => graphStatus
  | con :: rest =>
    if con.Type_ = DeploymentAvailable then
      { graphStatus with
          URL := url,
          Conditions := [{ Type_ := ConditionReady, Status := ConditionTrue }] }
    else propagateAvailable graphStatus url rest

/-- Source function `PropagateRawStatus` (raw_ig.go, lines 157-175): the graph status after the
call. -/
def PropagateRawStatus (graphStatus : InferenceGraphStatus) (deployment : Deployment)
    (url : Option String) : InferenceGraphStatus :=
  let graphStatus := propagateAvailable graphStatus url deployment.Status.Conditions
  { graphStatus with ObservedGeneration := deployment.Status.ObservedGeneration }

/-- Type `v1.ResourceList` and the two lists of `v1.ResourceRequirements`: resource
names bound to quantities, each quantity held as its canonical text (the text
its `MarshalJSON` writes). The empty list is the nil or empty map. -/
structure ResourceRequirements where
  Limits : List (String × String) := []
  Requests : List (String × String) := []
  deriving DecidableEq, Repr

/-- A `v1.Affinity` value, held as the JSON object text that `encoding/json`
writes for it; the program copies it and serializes it, and reads nothing in
it. -/
structure Affinity where
  Rendered : String
  deriving DecidableEq, Repr

/-- Modelled from the spec: the declarations of the `v1alpha1` graph types are
not among the sources. An inference target as the repository's tests build it,
with the fields of KServe's type. -/
structure InferenceTarget where
  NodeName : String := ""
  ServiceName : String := ""
  ServiceURL : String := ""
  deriving DecidableEq, Repr

/-- Modelled from the spec: a step of a router, which embeds its inference
target (`InferenceTarget: v1alpha1.InferenceTarget{...}` in the tests). -/
structure InferenceStep where
  StepName : String := ""
  InferenceTarget : InferenceTarget := {}
  Data : String := ""
  Weight : Option Int := none
  Condition : String := ""
  deriving DecidableEq, Repr

/-- Modelled from the spec: a named node of the graph, "a router with a type
and an ordered list of steps". -/
structure InferenceRouter where
  RouterType : String
  Steps : List InferenceStep := []
  deriving DecidableEq, Repr

/-- Modelled from the spec: the graph spec, "topology of named nodes; resource
requirements; optional scheduling affinity". `Nodes` is a Go map (`none` is
nil) whose entries have distinct keys. -/
structure InferenceGraphSpec where
  Nodes : Option (List (String × InferenceRouter)) := none
  Resources : ResourceRequirements := {}
  Affinity : Option Affinity := none
  deriving DecidableEq, Repr

/-- Modelled from the spec: the graph resource, with its identity block, spec
and status. -/
structure InferenceGraph where
  ObjectMeta : ObjectMeta
  Spec : InferenceGraphSpec
  Status : InferenceGraphStatus := {}
  deriving DecidableEq, Repr

/-- Modelled from the spec: the router configuration (declared in a file of
the package that is not among the sources), with the fields the tests set:
image, default request and limit texts, and the header map (`none` is the nil
map). -/
structure RouterConfig where
  Image : String
  CpuRequest : String := ""
  CpuLimit : String := ""
  MemoryRequest : String := ""
  MemoryLimit : String := ""
  Headers : Option (List (String × List String)) := none
  deriving DecidableEq, Repr

/-- Type `v1.EnvVar`. -/
structure EnvVar where
  Name : String
  Value : String
  deriving DecidableEq, Repr

/-- Type `v1.Container`, with the fields the program sets; `Env := []` is the nil
(absent) list. -/
structure Container where
  Name : String
  Image : String
  Args : List String
  Resources : ResourceRequirements
  Env : List EnvVar := []
  deriving DecidableEq, Repr

/-- Type `v1.PodSpec`, with the fields the program sets. -/
structure PodSpec where
  Containers : List Container
  Affinity : Option Affinity
  deriving DecidableEq, Repr

/-- Go `v, ok := m[k]` on the header map. -/
def headersLookup (m : Option (List (String × List String))) (k : String) :
    Option (List String) :=
  match m with
  | none => none
  | some es => es.lookup k

/-- Source function `createInferenceGraphPodSpec` (raw_ig.go, lines 45-79). `marshal` is
`json.Marshal` on the graph spec followed by `string(bytes)` (`none` is a
non-nil error); `constructResourceRequirements` is the helper of the package
that is not among the sources, with its Go signature. The result `none` is the
nil pod spec. -/
def createInferenceGraphPodSpec (c : Constants)
    (marshal : InferenceGraphSpec → Option String)
    (constructResourceRequirements : InferenceGraph → RouterConfig → ResourceRequirements)
    (graph : InferenceGraph) (config : RouterConfig) : Option PodSpec :=
  match marshal graph.Spec with
  | none => none
  | some bytes =>
    -- Pod spec with 'router container with resource requirements' and 'affinity' as well
    let podSpec : PodSpec :=
      { Containers :=
          [{ Name := graph.ObjectMeta.Name,
             Image := config.Image,
             Args := ["--graph-json", bytes],
             Resources := constructResourceRequirements graph config }],
        Affinity := graph.Spec.Affinity }
    -- Only adding this env variable if router's headers config has the key "propagate"
    match headersLookup config.Headers "propagate" with
    | some value =>
      some { podSpec with
        Containers := podSpec.Containers.modifyHead (fun container =>
          { container with
            Env := [{ Name := c.RouterHeadersPropagateEnvVar,
                      Value := String.intercalate "," value }] }) }
    | none => some podSpec

/-! ## `encoding/json` on the graph spec -/

/-- The hexadecimal digit of a number below 16, as `encoding/json` writes it. -/
def hexDigit (n : Nat) : Char := "0123456789abcdef".data.getD n (Char.ofNat 48)

/-- The characters `encoding/json` (with HTML escaping, as `json.Marshal` has
it) writes for one character of a string: the quote (34) and the backslash
(92) get a backslash in front; newline, carriage return and tab get their
short forms, and so do backspace and form feed (as from Go 1.22); other
control characters and the characters `<`, `>`, `&` are written as a `u00XX`
escape; the line and paragraph separators as `u2028` and `u2029`; every other
character is written as it is. -/
def jsonEscapeChar (ch : Char) : List Char :=
  if ch.toNat = 34 then [Char.ofNat 92, Char.ofNat 34]
  else if ch.toNat = 92 then [Char.ofNat 92, Char.ofNat 92]
  else if ch.toNat = 8 then [Char.ofNat 92, 'b']
  else if ch.toNat = 12 then [Char.ofNat 92, 'f']
  else if ch.toNat = 10 then [Char.ofNat 92, 'n']
  else if ch.toNat = 13 then [Char.ofNat 92, 'r']
  else if ch.toNat = 9 then [Char.ofNat 92, 't']
  else if ch.toNat < 32 ∨ ch.toNat = 60 ∨ ch.toNat = 62 ∨ ch.toNat = 38 then
    [Char.ofNat 92, 'u', '0', '0', hexDigit (ch.toNat / 16), hexDigit (ch.toNat % 16)]
  else if ch.toNat = 8232 then [Char.ofNat 92, 'u', '2', '0', '2', '8']
  else if ch.toNat = 8233 then [Char.ofNat 92, 'u', '2', '0', '2', '9']
  else [ch]

/-- A Go string as a JSON string. -/
def jsonString (s : String) : String :=
  ⟨Char.ofNat 34 :: (s.data.flatMap jsonEscapeChar ++ [Char.ofNat 34])⟩

/-- A JSON object from its members (key, rendered value), in the given order. -/
def jsonObject (members : List (String × String)) : String :=
  "\x7b" ++ String.intercalate "," (members.map (fun f => jsonString f.1 ++ ":" ++ f.2)) ++ "\x7d"

/-- A JSON array from its rendered elements. -/
def jsonArray (elements : List String) : String :=
  "[" ++ String.intercalate "," elements ++ "]"

/-- Byte-wise order of two strings, the order in which `encoding/json` writes
the keys of a map (code-point order, which UTF-8 preserves). -/
def charsLt : List Char → List Char → Bool
  | [], [] => false
  | [], _ :: _ => true
  | _ :: _, [] => false
  | a :: as, b :: bs =>
    if a.toNat < b.toNat then true
    else if b.toNat < a.toNat then false
    else charsLt as bs

/-- Insertion of a member into a list of members sorted by key. -/
def insertByKey (e : String × String) : List (String × String) → List (String × String)
  | [] => [e]
  | x :: xs => if charsLt e.1.data x.1.data then e :: x :: xs else x :: insertByKey e xs

/-- The members of a map sorted by key. -/
def sortByKey (members : List (String × String)) : List (String × String) :=
  members.foldr insertByKey []

/-- A string field tagged `omitempty`: no member when the string is empty. -/
def omitemptyString (key value : String) : List (String × String) :=
  if value = "" then [] else [(key, jsonString value)]

/-- Rendering of an `InferenceStep`: every field is tagged `omitempty`; the
embedded target's fields stand where the target is embedded. -/
def renderInferenceStep (step : InferenceStep) : String :=
  jsonObject
    (omitemptyString "name" step.StepName ++
      omitemptyString "nodeName" step.InferenceTarget.NodeName ++
      omitemptyString "serviceName" step.InferenceTarget.ServiceName ++
      omitemptyString "serviceUrl" step.InferenceTarget.ServiceURL ++
      omitemptyString "data" step.Data ++
      (match step.Weight with
        | some w => [("weight", toString w)]
        | none => []) ++
      omitemptyString "condition" step.Condition)

/-- Rendering of an `InferenceRouter`: `routerType` always, `steps` unless empty. -/
def renderInferenceRouter (router : InferenceRouter) : String :=
  jsonObject
    ([("routerType", jsonString router.RouterType)] ++
      (if router.Steps.isEmpty then []
       else [("steps", jsonArray (router.Steps.map renderInferenceStep))]))

/-- Rendering of a `v1.ResourceList`: a map from resource name to quantity text. -/
def renderResourceList (resources : List (String × String)) : String :=
  jsonObject (sortByKey (resources.map (fun e => (e.1, jsonString e.2))))

/-- Rendering of `v1.ResourceRequirements`: `limits` and `requests` unless empty. -/
def renderResourceRequirements (resources : ResourceRequirements) : String :=
  jsonObject
    ((if resources.Limits.isEmpty then []
      else [("limits", renderResourceList resources.Limits)]) ++
     (if resources.Requests.isEmpty then []
      else [("requests", renderResourceList resources.Requests)]))

/-- Rendering of the graph spec: `nodes` always (`null` for the nil map, the
keys in byte-wise order otherwise), `resources` always (a struct is never
empty for `omitempty`), `affinity` unless nil. -/
def renderInferenceGraphSpec (spec : InferenceGraphSpec) : String :=
  jsonObject
    ([("nodes",
        match spec.Nodes with
        | none => "null"
        | some nodes =>
          jsonObject (sortByKey (nodes.map (fun e => (e.1, renderInferenceRouter e.2))))),
      ("resources", renderResourceRequirements spec.Resources)] ++
     (match spec.Affinity with
      | some affinity => [("affinity", affinity.Rendered)]
      | none => []))

/-- Modelled from the spec: `json.Marshal` on a graph spec, with the JSON names
and `omitempty` tags of KServe's `v1alpha1` types (the repository's tests fix
the rendering of the fields they set). On these types it returns no error. -/
def jsonMarshal (spec : InferenceGraphSpec) : Option String :=
  some (renderInferenceGraphSpec spec)

/-! ## `handleInferenceGraphRawDeployment` -/

/-- The error `errors.Wrapf(err, message)` builds from a non-nil `err`. -/
structure WrappedError where
  Message : String
  Cause : APIError
  deriving DecidableEq, Repr

/-- Modelled from the spec: what the handler calls outside the sources, over
the type `ρ` of `raw.RawKubeReconciler` values. `NewRawKubeReconciler` gets
the identity block, the (nil) extension spec and the pod spec, and returns a
reconciler or an error; the three owner-reference attachments get the graph as
owner and write into the reconciler's deployment, service and autoscaler, or
fail; `Reconcile` returns the live deployment or an error, and may change the
reconciler; `URL` reads the reconciler's URL. -/
structure RawKubeCollaborators (ρ : Type) where
  NewRawKubeReconciler :
    ObjectMeta → Option ComponentExtensionSpec → Option PodSpec → Except APIError ρ
  SetDeploymentReference : InferenceGraph → ρ → Except APIError ρ
  SetServiceReference : InferenceGraph → ρ → Except APIError ρ
  SetAutoscalerReferences : InferenceGraph → ρ → Except APIError ρ
  Reconcile : ρ → Except APIError Deployment × ρ
  URL : ρ → Option String

/-- The calls of the handler that reach outside it or write the graph status,
in the order of the source; the constructor call is recorded with the pod spec
it is given. -/
inductive HandlerStep where
  | NewRawKubeReconciler (podSpec : Option PodSpec)
  | SetDeploymentReference
  | SetServiceReference
  | SetAutoscalerReferences
  | Reconcile
  | PropagateRawStatus
  deriving DecidableEq, Repr

/-- What a run of the handler leaves: the returned error (`none` is nil; the
returned `ctrl.Result` is always empty), the graph after the run, and the steps
taken, oldest first. -/
structure HandlerResult where
  err : Option WrappedError
  graph : InferenceGraph
  steps : List HandlerStep
  deriving DecidableEq, Repr

/-- The graph after `constructGraphObjectMeta` has run on its label map: the
function writes the graph label into the map it is passed, which is the
graph's own map unless that map is nil. -/
def labelledGraph (c : Constants) (graph : InferenceGraph) : InferenceGraph :=
  { graph with
    ObjectMeta :=
      { graph.ObjectMeta with
        Labels :=
          match graph.ObjectMeta.Labels with
          | none => none
          | some es => some (mapSet es c.InferenceGraphLabel graph.ObjectMeta.Name) } }

/-- Source function `handleInferenceGraphRawDeployment` (raw_ig.go, lines 115-152). -/
def handleInferenceGraphRawDeployment {ρ : Type} (c : Constants)
    (marshal : InferenceGraphSpec → Option String)
    (constructResourceRequirements : InferenceGraph → RouterConfig → ResourceRequirements)
    (deps : RawKubeCollaborators ρ) (graph : InferenceGraph) (routerConfig : RouterConfig) :
    HandlerResult :=
  -- create desired service object.
  let desiredSvc :=
    createInferenceGraphPodSpec c marshal constructResourceRequirements graph routerConfig
  let objectMeta := constructGraphObjectMeta c graph.ObjectMeta.Name graph.ObjectMeta.Namespace
    graph.ObjectMeta.Annotations graph.ObjectMeta.Labels
  let graph := labelledGraph c graph
  -- create the reconciler
  let steps := [HandlerStep.NewRawKubeReconciler desiredSvc]
  match deps.NewRawKubeReconciler objectMeta none desiredSvc with
  | Except.error err =>
    { err := some { Message := "fails to create NewRawKubeReconciler for inference graph",
                    Cause := err },
      graph := graph, steps := steps }
  | Except.ok reconciler =>
    -- set Deployment Controller
    let steps := steps ++ [HandlerStep.SetDeploymentReference]
    match deps.SetDeploymentReference graph reconciler with
    | Except.error err =>
      { err := some { Message := "fails to set deployment owner reference for inference graph",
                      Cause := err },
        graph := graph, steps := steps }
    | Except.ok reconciler =>
      -- set Service Controller
      let steps := steps ++ [HandlerStep.SetServiceReference]
      match deps.SetServiceReference graph reconciler with
      | Except.error err =>
        { err := some { Message := "fails to set service owner reference for inference graph",
                        Cause := err },
          graph := graph, steps := steps }
      | Except.ok reconciler =>
        -- set autoscaler Controller
        let steps := steps ++ [HandlerStep.SetAutoscalerReferences]
        match deps.SetAutoscalerReferences graph reconciler with
        | Except.error err =>
          { err := some
              { Message := "fails to set autoscaler owner references for inference graph",
                Cause := err },
            graph := graph, steps := steps }
        | Except.ok reconciler =>
          -- reconcile
          let steps := steps ++ [HandlerStep.Reconcile]
          match deps.Reconcile reconciler with
          | (Except.error err, _) =>
            { err := some { Message := "fails to reconcile inference graph raw", Cause := err },
              graph := graph, steps := steps }
          | (Except.ok deployment, reconciler) =>
            { err := none,
              graph :=
                { graph with
                  Status := PropagateRawStatus graph.Status deployment (deps.URL reconciler) },
              steps := steps ++ [HandlerStep.PropagateRawStatus] }

/-! ## Auxiliary definitions used in the statements -/

/-- The utilization left by the first step of `getHPAMetrics`: the converted
`Atoi` value of the target-utilization annotation when it is present, the
default constant otherwise. -/
def baseUtilization (c : Constants) (m : ObjectMeta) : Int :=
  match mapLookup m.Annotations c.TargetUtilizationPercentage with
  | some value => int32 (Atoi value).1
  | none => c.DefaultCPUUtilization

/-- The one-element metric list `getHPAMetrics` builds from a resource name and
a utilization. -/
def utilizationMetric (resourceName : String) (utilization : Int) : List MetricSpec :=
  [{ Type_ := ResourceMetricSourceType,
     Resource := some { Name := resourceName,
                        Target := { Type_ := "Utilization",
                                    AverageUtilization := some utilization } } }]

/-- The two clamps that end the replica resolution of `createHPA`, as a
policy: identity, target reference, clamped minimum and maximum, the metric
list and the empty behavior block. -/
def clampedHPA (c : Constants) (m : ObjectMeta) (minReplicas maxReplicas : Int)
    (metrics : List MetricSpec) : HorizontalPodAutoscaler :=
  { ObjectMeta := m,
    Spec :=
      { ScaleTargetRef := { APIVersion := "apps/v1", Kind := "Deployment", Name := m.Name },
        MinReplicas := some (max minReplicas c.DefaultMinReplicas),
        MaxReplicas := max maxReplicas (max minReplicas c.DefaultMinReplicas),
        Metrics := metrics,
        Behavior := some {} } }

/-- An integer-valued annotation as `createHPA` and `getHPAMetrics` read it:
`some v` when the key is present and `strconv.ParseInt(_, 10, 64)` accepts its
value as `v`, `none` when the key is absent or the value is rejected. -/
def parsedIntAnnotationValue (annotations : StringMap) (key : String) : Option Int :=
  match mapLookup annotations key with
  | some s => if (ParseInt s).2 = none then some (ParseInt s).1 else none
  | none => none

/-- A value fits the signed 32-bit range. -/
def fitsInt32 (x : Int) : Prop := -2147483648 ≤ x ∧ x ≤ 2147483647

instance (x : Int) : Decidable (fitsInt32 x) := by
  unfold fitsInt32
  infer_instance

/-- A graph identity named `basic-ig` (the name used by the repository's
tests) carrying the graph label and the given annotations. -/
def graphMeta (annotations : List (String × String)) : ObjectMeta :=
  { Name := "basic-ig", Namespace := "basic-ig-namespace",
    Labels := some [("serving.kserve.io/inferencegraph", "basic-ig")],
    Annotations := some annotations }

/-- An inference-service identity (no graph label) with the given annotations. -/
def serviceMeta (annotations : List (String × String)) : ObjectMeta :=
  { Name := "sklearn-predictor", Namespace := "default",
    Labels := some [("app", "sklearn")],
    Annotations := some annotations }

/-- A client over the trivial cluster state whose `Get` gives a fixed answer and
whose writes succeed and leave the passed object as it is. -/
def fixedClient (answer : Except APIError HorizontalPodAutoscaler) : Client Unit :=
  { Get := fun _ s => (answer, s),
    Create := fun obj s => { err := none, obj := obj, state := s },
    Update := fun obj s => { err := none, obj := obj, state := s } }

/-- A graph identity whose min-scale annotation is below the floor and whose
max-scale annotation is below the resolved minimum. -/
def lowScaleGraphMeta : ObjectMeta :=
  graphMeta [("serving.kserve.io/min-scale", "-3"), ("serving.kserve.io/max-scale", "0")]

/-- A graph identity with graph target "40" beside a target-utilization
annotation of "75". -/
def targetGraphMeta : ObjectMeta :=
  graphMeta [("serving.kserve.io/targetUtilizationPercentage", "75"),
    ("serving.kserve.io/target", "40")]

/-- A service identity (no graph label) that carries all four graph-only
annotations. -/
def annotatedServiceMeta : ObjectMeta :=
  serviceMeta [("serving.kserve.io/target", "40"), ("serving.kserve.io/metric", "memory"),
    ("serving.kserve.io/min-scale", "2"), ("serving.kserve.io/max-scale", "7")]

/-- An extension spec with the given scale target and nothing else set. -/
def scaleTargetExt (t : Int) : ComponentExtensionSpec :=
  { MinReplicas := none, MaxReplicas := 3, ScaleTarget := some t, ScaleMetric := none }

/-- A graph identity without graph target annotation, carrying the
target-utilization annotation "50". -/
def percentageGraphMeta : ObjectMeta :=
  graphMeta [("serving.kserve.io/targetUtilizationPercentage", "50")]

/-- A service identity carrying the target-utilization annotation "50". -/
def percentageServiceMeta : ObjectMeta :=
  serviceMeta [("serving.kserve.io/targetUtilizationPercentage", "50")]

/-- An extension spec with only the maximum replicas set. -/
def plainExt : ComponentExtensionSpec :=
  { MinReplicas := none, MaxReplicas := 3, ScaleTarget := none, ScaleMetric := none }

/-- The final minimum replicas of an inference-service identity in the words
of the specification: the extension spec's min-replicas field if present, else
the global floor, raised to the global floor. -/
def specServiceMinReplicas (c : Constants) (e : ComponentExtensionSpec) : Int :=
  match e.MinReplicas with
  | some r => max r c.DefaultMinReplicas
  | none => max c.DefaultMinReplicas c.DefaultMinReplicas

/-- The final maximum replicas of an inference-service identity in the words
of the specification: the extension spec's max-replicas field raised to the
final minimum. -/
def specServiceMaxReplicas (c : Constants) (e : ComponentExtensionSpec) : Int :=
  max e.MaxReplicas (specServiceMinReplicas c e)

/-- An extension spec with the given replica bounds and nothing else set. -/
def replicasExt (minReplicas : Option Int) (maxReplicas : Int) : ComponentExtensionSpec :=
  { MinReplicas := minReplicas, MaxReplicas := maxReplicas, ScaleTarget := none,
    ScaleMetric := none }

/-- A graph identity with the metric annotation "memory". -/
def metricGraphMeta : ObjectMeta :=
  graphMeta [("serving.kserve.io/metric", "memory")]

/-- An extension spec whose scale metric is "rps". -/
def metricExt : ComponentExtensionSpec :=
  { MinReplicas := none, MaxReplicas := 3, ScaleTarget := none, ScaleMetric := some "rps" }

/-- The desired policy of the graph identity `lowScaleGraphMeta`. -/
def desiredHPA : HorizontalPodAutoscaler :=
  clampedHPA kserveConstants lowScaleGraphMeta (-3) 0 (utilizationMetric "cpu" 80)

/-- A live policy with the spec of `desiredHPA` whose metadata and status are
what a server leaves: other labels and annotations, a resource version, an
owner reference, a populated status. -/
def liveHPA : HorizontalPodAutoscaler :=
  { ObjectMeta :=
      { Name := "basic-ig", Namespace := "basic-ig-namespace",
        Labels := some [("managed-by", "kserve")],
        Annotations := none,
        ResourceVersion := "4711",
        OwnerReferences := [{ Kind := "InferenceGraph", Name := "basic-ig", Controller := true }] },
    Spec := desiredHPA.Spec,
    Status := { ObservedGeneration := some 3, CurrentReplicas := 2, DesiredReplicas := 2 } }

/-- The not-found error of the cluster API. -/
def notFoundError : APIError :=
  { IsNotFound := true, Message := "horizontalpodautoscalers \"basic-ig\" not found" }

/-- An error of the cluster API other than not-found. -/
def timeoutError : APIError :=
  { IsNotFound := false, Message := "context deadline exceeded" }

/-- The reconciler for `desiredHPA` over a client with a fixed `Get` answer. -/
def fixedReconciler (answer : Except APIError HorizontalPodAutoscaler) : HPAReconciler Unit :=
  { client := fixedClient answer, HPA := desiredHPA, componentExt := none }

/-- The world before any call. -/
def emptyWorld : World Unit :=
  { state := (), calls := [] }

/-- The key under which a reconciler looks up its policy. -/
def HPAReconciler.key {σ : Type} (r : HPAReconciler σ) : NamespacedName :=
  { Namespace := r.HPA.ObjectMeta.Namespace, Name := r.HPA.ObjectMeta.Name }

/-- A graph identity with min-scale "2" and max-scale "7". -/
def scaledGraphMeta : ObjectMeta :=
  graphMeta [("serving.kserve.io/min-scale", "2"), ("serving.kserve.io/max-scale", "7")]

/-- A live policy whose spec differs from `desiredHPA` (maximum 5) and whose
metadata carries what a server leaves. -/
def staleHPA : HorizontalPodAutoscaler :=
  { ObjectMeta := liveHPA.ObjectMeta,
    Spec := { desiredHPA.Spec with MaxReplicas := 5 },
    Status := liveHPA.Status }

/-- The object a merge of the desired spec onto the live object would be: the
live object with its `Spec` replaced. -/
def mergedOnto (live desired : HorizontalPodAutoscaler) : HorizontalPodAutoscaler :=
  { live with Spec := desired.Spec }

/-- The key of an object: its namespace and name. -/
def objectKey (obj : HorizontalPodAutoscaler) : NamespacedName :=
  { Namespace := obj.ObjectMeta.Namespace, Name := obj.ObjectMeta.Name }

/-- A client that behaves as a store: `Get` leaves the state alone, and after a
successful `Create` or `Update` of an object, `Get` under that object's key
finds a live object with the written spec. -/
structure StoreLaws {σ : Type} (cl : Client σ) : Prop where
  get_state : ∀ key s, (cl.Get key s).2 = s
  create_live : ∀ obj s, (cl.Create obj s).err = none →
    ∃ live, (cl.Get (objectKey obj) (cl.Create obj s).state).1 = Except.ok live ∧
      live.Spec = obj.Spec
  update_live : ∀ obj s, (cl.Update obj s).err = none →
    ∃ live, (cl.Get (objectKey obj) (cl.Update obj s).state).1 = Except.ok live ∧
      live.Spec = obj.Spec

/-- The state of the store client: the live object under each key, if any. -/
abbrev Store := NamespacedName → Option HorizontalPodAutoscaler

/-- The error of a `Create` on a key that is taken. -/
def alreadyExistsError : APIError :=
  { IsNotFound := false, Message := "already exists" }

/-- A store client: `Get` finds the live object or reports not-found; `Create`
stores the object unless its key is taken; `Update` replaces the live object
unless there is none. Writes leave the passed object as it is. -/
def storeClient : Client Store :=
  { Get := fun key s =>
      match s key with
      | some live => (Except.ok live, s)
      | none => (Except.error notFoundError, s),
    Create := fun obj s =>
      match s (objectKey obj) with
      | some _ => { err := some alreadyExistsError, obj := obj, state := s }
      | none => { err := none, obj := obj, state := Function.update s (objectKey obj) (some obj) },
    Update := fun obj s =>
      match s (objectKey obj) with
      | some _ => { err := none, obj := obj, state := Function.update s (objectKey obj) (some obj) }
      | none => { err := some notFoundError, obj := obj, state := s } }

/-- The reconciler for `desiredHPA` over the store client. -/
def storeReconciler : HPAReconciler Store :=
  { client := storeClient, HPA := desiredHPA, componentExt := none }

/-- A world whose store holds the given objects under their keys (later
entries of the list are overridden by earlier ones) and no call issued yet. -/
def storeWorld (objs : List HorizontalPodAutoscaler) : World Store :=
  { state := fun key => objs.find? (fun o => decide (objectKey o = key)), calls := [] }

/-- A client whose `Get` gives a fixed answer and whose writes fail with the
given error. -/
def failingClient (answer : Except APIError HorizontalPodAutoscaler) (e : APIError) :
    Client Unit :=
  { Get := fun _ s => (answer, s),
    Create := fun obj s => { err := some e, obj := obj, state := s },
    Update := fun obj s => { err := some e, obj := obj, state := s } }

/-- The reconciler for `desiredHPA` over a client whose writes fail. -/
def failingReconciler (answer : Except APIError HorizontalPodAutoscaler) (e : APIError) :
    HPAReconciler Unit :=
  { client := failingClient answer e, HPA := desiredHPA, componentExt := none }

/-- The error of a rejected write. -/
def conflictError : APIError :=
  { IsNotFound := false, Message := "the object has been modified" }

/-- A deployment with the given conditions in place of its own. -/
def withConditions (d : Deployment) (conditions : List DeploymentCondition) : Deployment :=
  { d with Status := { d.Status with Conditions := conditions } }

/-- A deployment at generation 7 that is progressing and carries two
available conditions, the second one with status False. -/
def twiceAvailableDeployment : Deployment :=
  { ObjectMeta := { Name := "basic-ig", Namespace := "basic-ig-namespace", Labels := none,
                    Annotations := none },
    Status :=
      { ObservedGeneration := 7,
        Conditions :=
          [{ Type_ := "Progressing", Status := "True" },
           { Type_ := "Available", Status := "True" },
           { Type_ := "Available", Status := "False" }] } }

/-- A graph status from an earlier pass: generation 3, not ready, an old URL. -/
def priorStatus : InferenceGraphStatus :=
  { ObservedGeneration := 3,
    Conditions := [{ Type_ := "Ready", Status := "False", Reason := "Pending" }],
    URL := some "http://old.example.com" }

/-- The graph "basic" of `TestCreateInferenceGraphPodSpec`. -/
def basicGraph : InferenceGraph :=
  { ObjectMeta := { Name := "basic-ig", Namespace := "basic-ig-namespace", Labels := none,
                    Annotations := none },
    Spec :=
      { Nodes := some
          [("root",
            { RouterType := "Sequence",
              Steps := [{ InferenceTarget := { ServiceURL := "http://someservice.exmaple.com" } }] })] } }

/-- The graph "withresource" of `TestCreateInferenceGraphPodSpec`. -/
def resourceGraph : InferenceGraph :=
  { ObjectMeta := { Name := "resource-ig", Namespace := "resource-ig-namespace", Labels := none,
                    Annotations := some [("serving.kserve.io/deploymentMode", "RawDeployment")] },
    Spec :=
      { Nodes := basicGraph.Spec.Nodes,
        Resources :=
          { Limits := [("cpu", "100m"), ("memory", "500Mi")],
            Requests := [("cpu", "100m"), ("memory", "100Mi")] } } }

/-- The router config of `TestCreateInferenceGraphPodSpec`. -/
def testRouterConfig : RouterConfig :=
  { Image := "kserve/router:v0.10.0", CpuRequest := "100m", CpuLimit := "100m",
    MemoryRequest := "100Mi", MemoryLimit := "500Mi" }

/-- The router config with headers of `TestCreateInferenceGraphPodSpec`. -/
def testRouterConfigWithHeaders : RouterConfig :=
  { testRouterConfig with Headers := some [("propagate", ["Authorization", "Intuit_tid"])] }

/-- A stand-in for the helper `constructResourceRequirements`: the router
config's defaults. -/
def routerDefaults (_graph : InferenceGraph) (config : RouterConfig) : ResourceRequirements :=
  { Limits := [("cpu", config.CpuLimit), ("memory", config.MemoryLimit)],
    Requests := [("cpu", config.CpuRequest), ("memory", config.MemoryRequest)] }

/-- A deployment at generation 2 with one available condition. -/
def readyDeployment : Deployment :=
  { ObjectMeta := { Name := "basic-ig", Namespace := "basic-ig-namespace", Labels := none,
                    Annotations := none },
    Status := { ObservedGeneration := 2,
                Conditions := [{ Type_ := "Available", Status := "True" }] } }

/-- Collaborators that go through: the constructor accepts whatever pod spec it
is given (nil included) and keeps it as the reconciler, the attachments
succeed, and `Reconcile` returns `readyDeployment`. -/
def acceptingCollaborators : RawKubeCollaborators (Option PodSpec) :=
  { NewRawKubeReconciler := fun _ _ podSpec => Except.ok podSpec,
    SetDeploymentReference := fun _ r => Except.ok r,
    SetServiceReference := fun _ r => Except.ok r,
    SetAutoscalerReferences := fun _ r => Except.ok r,
    Reconcile := fun r => (Except.ok readyDeployment, r),
    URL := fun _ => some "http://basic-ig.basic-ig-namespace" }

/-- Collaborators as `acceptingCollaborators`, except that attaching the owner
reference to the service fails. -/
def serviceRejectingCollaborators : RawKubeCollaborators (Option PodSpec) :=
  { acceptingCollaborators with
    SetServiceReference := fun _ _ => Except.error timeoutError }

/-- Collaborators as `acceptingCollaborators`, except that `Reconcile` fails. -/
def reconcileFailingCollaborators : RawKubeCollaborators (Option PodSpec) :=
  { acceptingCollaborators with
    Reconcile := fun r => (Except.error conflictError, r) }

/-- The identity block the handler builds for the derived objects. -/
def graphObjectMeta (c : Constants) (graph : InferenceGraph) : ObjectMeta :=
  constructGraphObjectMeta c graph.ObjectMeta.Name graph.ObjectMeta.Namespace
    graph.ObjectMeta.Annotations graph.ObjectMeta.Labels

/-- The same identity with the annotation under `key` removed. -/
def withoutAnnotationKey (m : ObjectMeta) (key : String) : ObjectMeta :=
  { m with Annotations := m.Annotations.map (fun es => es.filter (fun e => e.1 != key)) }

/-- A service identity whose target-utilization annotation is not an integer. -/
def badPercentageServiceMeta : ObjectMeta :=
  serviceMeta [("serving.kserve.io/targetUtilizationPercentage", "80%")]

/-- A graph identity whose target-utilization annotation is not an integer. -/
def badPercentageGraphMeta : ObjectMeta :=
  graphMeta [("serving.kserve.io/targetUtilizationPercentage", "80%")]

/-- An extension spec with every field set, to tell a read of it. -/
def fullExt : ComponentExtensionSpec :=
  { MinReplicas := some 4, MaxReplicas := 9, ScaleTarget := some 55, ScaleMetric := some "memory" }

/-- A deployment at generation 5 whose only available condition has status
False. -/
def unavailableDeployment : Deployment :=
  { ObjectMeta := { Name := "basic-ig", Namespace := "basic-ig-namespace", Labels := none,
                    Annotations := none },
    Status :=
      { ObservedGeneration := 5,
        Conditions :=
          [{ Type_ := "Progressing", Status := "True" },
           { Type_ := "Available", Status := "False", Reason := "MinimumReplicasUnavailable" }] } }

/-- A deployment at generation 5 with the condition types of
`unavailableDeployment`, in the same order, and other statuses, reasons,
messages, replica counts and metadata. -/
def availableDeployment : Deployment :=
  { ObjectMeta := { Name := "other", Namespace := "elsewhere", Labels := none,
                    Annotations := none },
    Status :=
      { ObservedGeneration := 5,
        Replicas := 3,
        AvailableReplicas := 3,
        Conditions :=
          [{ Type_ := "Progressing", Status := "False", Message := "done" },
           { Type_ := "Available", Status := "True" }] } }

/-! ## Helper lemmas -/

/-- Narrowing is the identity on values that fit in 32 bits. -/
theorem int32_of_fits (x : Int) (hlo : -2147483648 ≤ x) (hhi : x ≤ 2147483647) :
    int32 x = x := by
  unfold int32
  omega

/-- Unfolding of `getHPAMetrics` on an identity that carries the graph label. -/
theorem getHPAMetrics_graph (c : Constants) (m : ObjectMeta)
    (ext : Option ComponentExtensionSpec) (g : String)
    (hlabel : mapLookup m.Labels c.InferenceGraphLabel = some g) :
    getHPAMetrics c m ext =
      some (utilizationMetric
        (match mapLookup m.Annotations c.InferenceGraphMetricsAnnotationKey with
          | some metric => metric
          | none => ResourceCPU)
        (match mapLookup m.Annotations c.InferenceGraphTargetAnnotationKey with
          | some target =>
            if (ParseInt target).2 = none then int32 (ParseInt target).1
            else baseUtilization c m
          | none => baseUtilization c m)) := by
  simp only [getHPAMetrics, hlabel, baseUtilization, utilizationMetric]

/-- Unfolding of `getHPAMetrics` on an identity without the graph label, with
an extension spec. -/
theorem getHPAMetrics_nongraph (c : Constants) (m : ObjectMeta)
    (e : ComponentExtensionSpec)
    (hlabel : mapLookup m.Labels c.InferenceGraphLabel = none) :
    getHPAMetrics c m (some e) =
      some (utilizationMetric
        (match e.ScaleMetric with
          | some sm => sm
          | none => ResourceCPU)
        (match e.ScaleTarget with
          | some t => int32 t
          | none => baseUtilization c m)) := by
  simp only [getHPAMetrics, hlabel, baseUtilization, utilizationMetric]

/-- Without the graph label and with a nil extension spec `getHPAMetrics`
dereferences nil. -/
theorem getHPAMetrics_nil (c : Constants) (m : ObjectMeta)
    (hlabel : mapLookup m.Labels c.InferenceGraphLabel = none) :
    getHPAMetrics c m none = none := by
  simp only [getHPAMetrics, hlabel]

/-- Raising to a bound with `if x < b then b else x` is `max x b`. -/
theorem raise_eq_max (x b : Int) : (if x < b then b else x) = max x b := by
  split <;> omega

/-- Unfolding of `createHPA` on an identity that carries the graph label. -/
theorem createHPA_graph (c : Constants) (m : ObjectMeta)
    (ext : Option ComponentExtensionSpec) (g : String) (metrics : List MetricSpec)
    (hlabel : mapLookup m.Labels c.InferenceGraphLabel = some g)
    (hmetrics : getHPAMetrics c m ext = some metrics) :
    createHPA c m ext =
      some (clampedHPA c m
        (match mapLookup m.Annotations c.InferenceGraphMinScaleAnnotationKey with
          | some s => if (ParseInt s).2 = none then int32 (ParseInt s).1 else c.DefaultMinReplicas
          | none => c.DefaultMinReplicas)
        (match mapLookup m.Annotations c.InferenceGraphMaxScaleAnnotationKey with
          | some s => if (ParseInt s).2 = none then int32 (ParseInt s).1 else 0
          | none => 0)
        metrics) := by
  simp only [createHPA, hlabel, hmetrics, clampedHPA, raise_eq_max]

/-- Unfolding of `createHPA` on an identity without the graph label, with an
extension spec. -/
theorem createHPA_nongraph (c : Constants) (m : ObjectMeta)
    (e : ComponentExtensionSpec) (metrics : List MetricSpec)
    (hlabel : mapLookup m.Labels c.InferenceGraphLabel = none)
    (hmetrics : getHPAMetrics c m (some e) = some metrics) :
    createHPA c m (some e) =
      some (clampedHPA c m
        (match e.MinReplicas with
          | some r => int32 r
          | none => c.DefaultMinReplicas)
        (int32 e.MaxReplicas)
        metrics) := by
  simp only [createHPA, hlabel, hmetrics, clampedHPA, raise_eq_max]

/-- Without the graph label and with a nil extension spec `createHPA`
dereferences nil. -/
theorem createHPA_nil (c : Constants) (m : ObjectMeta)
    (hlabel : mapLookup m.Labels c.InferenceGraphLabel = none) :
    createHPA c m none = none := by
  simp only [createHPA, hlabel]

/-- The function `getHPAMetrics` returns exactly when the identity carries the graph label or
the extension spec is not nil. -/
theorem getHPAMetrics_isSome (c : Constants) (m : ObjectMeta)
    (ext : Option ComponentExtensionSpec) :
    (getHPAMetrics c m ext).isSome =
      ((mapLookup m.Labels c.InferenceGraphLabel).isSome || ext.isSome) := by
  cases h : mapLookup m.Labels c.InferenceGraphLabel with
  | some g => simp [getHPAMetrics_graph c m ext g h]
  | none =>
    cases ext with
    | none => simp [getHPAMetrics_nil c m h]
    | some e => simp [getHPAMetrics_nongraph c m e h]

/-- Whatever `getHPAMetrics` returns is a single utilization metric. -/
theorem getHPAMetrics_shape (c : Constants) (m : ObjectMeta)
    (ext : Option ComponentExtensionSpec) (metrics : List MetricSpec)
    (h : getHPAMetrics c m ext = some metrics) :
    ∃ name u, metrics = utilizationMetric name u := by
  cases hl : mapLookup m.Labels c.InferenceGraphLabel with
  | some g =>
    rw [getHPAMetrics_graph c m ext g hl] at h
    exact ⟨_, _, (Option.some.inj h).symm⟩
  | none =>
    cases ext with
    | none => rw [getHPAMetrics_nil c m hl] at h; cases h
    | some e =>
      rw [getHPAMetrics_nongraph c m e hl] at h
      exact ⟨_, _, (Option.some.inj h).symm⟩

/-- Whatever `createHPA` returns is a clamped policy around the metrics of
`getHPAMetrics`. -/
theorem createHPA_shape (c : Constants) (m : ObjectMeta)
    (ext : Option ComponentExtensionSpec) (hpa : HorizontalPodAutoscaler)
    (h : createHPA c m ext = some hpa) :
    ∃ a b metrics, getHPAMetrics c m ext = some metrics ∧ hpa = clampedHPA c m a b metrics := by
  cases hl : mapLookup m.Labels c.InferenceGraphLabel with
  | some g =>
    have hm := getHPAMetrics_graph c m ext g hl
    rw [createHPA_graph c m ext g _ hl hm] at h
    exact ⟨_, _, _, hm, (Option.some.inj h).symm⟩
  | none =>
    cases ext with
    | none => rw [createHPA_nil c m hl] at h; cases h
    | some e =>
      have hm := getHPAMetrics_nongraph c m e hl
      rw [createHPA_nongraph c m e _ hl hm] at h
      exact ⟨_, _, _, hm, (Option.some.inj h).symm⟩

/-- The function `createHPA` returns exactly when the identity carries the graph label or the
extension spec is not nil. -/
theorem createHPA_isSome (c : Constants) (m : ObjectMeta)
    (ext : Option ComponentExtensionSpec) :
    (createHPA c m ext).isSome =
      ((mapLookup m.Labels c.InferenceGraphLabel).isSome || ext.isSome) := by
  cases h : mapLookup m.Labels c.InferenceGraphLabel with
  | some g =>
    simp [createHPA_graph c m ext g _ h (getHPAMetrics_graph c m ext g h)]
  | none =>
    cases ext with
    | none => simp [createHPA_nil c m h]
    | some e => simp [createHPA_nongraph c m e _ h (getHPAMetrics_nongraph c m e h)]

/-- The way the source reads an integer annotation into a 32-bit variable with
fallback `d`, in the words of `parsedIntAnnotationValue`. -/
theorem readAnnotation_eq (annotations : StringMap) (key : String) (d : Int) :
    (match mapLookup annotations key with
      | some s => if (ParseInt s).2 = none then int32 (ParseInt s).1 else d
      | none => d) =
    (match parsedIntAnnotationValue annotations key with
      | some v => int32 v
      | none => d) := by
  unfold parsedIntAnnotationValue
  cases h : mapLookup annotations key with
  | none => rfl
  | some s =>
    by_cases hp : (ParseInt s).2 = none
    · simp [hp]
    · simp [hp]

/-- The result of a write step of `Reconcile`: nothing and the error when the
write failed, the written object (as the call left it) otherwise; the write is
appended to the call log. -/
theorem writeResult_cases {σ : Type} (res : WriteResult σ) (calls : List ClientCall) :
    (match res.err with
      | some err =>
        ({ hpa := none, err := some err,
           world := { state := res.state, calls := calls } } : ReconcileResult σ)
      | none =>
        { hpa := some res.obj, err := none,
          world := { state := res.state, calls := calls } }) =
    { hpa := if res.err = none then some res.obj else none, err := res.err,
      world := { state := res.state, calls := calls } } := by
  cases h : res.err <;> simp

/-- Unfolding of `Reconcile` when `Get` finds a live object with another spec. -/
theorem Reconcile_found_differs {σ : Type} (r : HPAReconciler σ) (w : World σ)
    (live : HorizontalPodAutoscaler) (s1 : σ)
    (hget : r.client.Get r.key w.state = (Except.ok live, s1))
    (hne : semanticHPAEquals r.HPA live = false) :
    r.Reconcile w =
      { hpa := if (r.client.Update r.HPA s1).err = none then
          some (r.client.Update r.HPA s1).obj else none,
        err := (r.client.Update r.HPA s1).err,
        world := { state := (r.client.Update r.HPA s1).state,
                   calls := w.calls ++ [ClientCall.Get r.key, ClientCall.Update r.HPA] } } := by
  simp only [HPAReconciler.key] at hget
  simp [HPAReconciler.Reconcile, HPAReconciler.checkHPAExist, HPAReconciler.key, hget, hne,
    writeResult_cases]

/-- Unfolding of `Reconcile` when `Get` finds a live object with the desired spec. -/
theorem Reconcile_found_equal {σ : Type} (r : HPAReconciler σ) (w : World σ)
    (live : HorizontalPodAutoscaler) (s1 : σ)
    (hget : r.client.Get r.key w.state = (Except.ok live, s1))
    (heq : semanticHPAEquals r.HPA live = true) :
    r.Reconcile w =
      { hpa := some live, err := none,
        world := { state := s1, calls := w.calls ++ [ClientCall.Get r.key] } } := by
  simp only [HPAReconciler.key] at hget
  simp [HPAReconciler.Reconcile, HPAReconciler.checkHPAExist, HPAReconciler.key, hget, heq]

/-- Unfolding of `Reconcile` when `Get` reports not-found. -/
theorem Reconcile_notFound {σ : Type} (r : HPAReconciler σ) (w : World σ)
    (e : APIError) (s1 : σ)
    (hget : r.client.Get r.key w.state = (Except.error e, s1))
    (hnf : e.IsNotFound = true) :
    r.Reconcile w =
      { hpa := if (r.client.Create r.HPA s1).err = none then
          some (r.client.Create r.HPA s1).obj else none,
        err := (r.client.Create r.HPA s1).err,
        world := { state := (r.client.Create r.HPA s1).state,
                   calls := w.calls ++ [ClientCall.Get r.key, ClientCall.Create r.HPA] } } := by
  simp only [HPAReconciler.key] at hget
  simp [HPAReconciler.Reconcile, HPAReconciler.checkHPAExist, HPAReconciler.key, hget, hnf,
    writeResult_cases]

/-- Unfolding of `Reconcile` when `Get` fails with an error other than not-found. -/
theorem Reconcile_getFailed {σ : Type} (r : HPAReconciler σ) (w : World σ)
    (e : APIError) (s1 : σ)
    (hget : r.client.Get r.key w.state = (Except.error e, s1))
    (hnf : e.IsNotFound = false) :
    r.Reconcile w =
      { hpa := none, err := some e,
        world := { state := s1, calls := w.calls ++ [ClientCall.Get r.key] } } := by
  simp only [HPAReconciler.key] at hget
  simp [HPAReconciler.Reconcile, HPAReconciler.checkHPAExist, HPAReconciler.key, hget, hnf]

/-- A `Get` that finds a live object with the desired spec ends the pass: one
more call in the log, the live object returned, whose spec is the desired one. -/
theorem Reconcile_settled {σ : Type} (r : HPAReconciler σ) (w : World σ)
    (hstate : ∀ key s, (r.client.Get key s).2 = s)
    (live : HorizontalPodAutoscaler)
    (hget : (r.client.Get r.key w.state).1 = Except.ok live)
    (hspec : live.Spec = r.HPA.Spec) :
    (r.Reconcile w).world.calls = w.calls ++ [ClientCall.Get r.key] ∧
      (r.Reconcile w).err = none ∧
      ∃ obj, (r.Reconcile w).hpa = some obj ∧ obj.Spec = r.HPA.Spec := by
  have hpair : r.client.Get r.key w.state = (Except.ok live, w.state) :=
    Prod.ext hget (hstate r.key w.state)
  have heq : semanticHPAEquals r.HPA live = true := by
    simp [semanticHPAEquals, hspec]
  rw [Reconcile_found_equal r w live w.state hpair heq]
  exact ⟨rfl, rfl, live, rfl, hspec⟩

/-- The store client obeys the store laws. -/
theorem storeClient_laws : StoreLaws storeClient := by
  refine ⟨?_, ?_, ?_⟩
  · intro key s
    simp only [storeClient]
    cases s key <;> rfl
  · intro obj s hok
    simp only [storeClient] at hok ⊢
    cases h : s (objectKey obj) with
    | some old => simp [h] at hok
    | none => exact ⟨obj, by simp [h], rfl⟩
  · intro obj s hok
    simp only [storeClient] at hok ⊢
    cases h : s (objectKey obj) with
    | none => simp [h] at hok
    | some old => exact ⟨obj, by simp [h], rfl⟩

/-- Writing a key makes it the binding of that key. -/
theorem lookup_mapSet_same (es : List (String × String)) (k v : String) :
    (mapSet es k v).lookup k = some v := by
  simp [mapSet, List.lookup]

/-- Filtering out a key leaves the bindings of the other keys. -/
theorem lookup_filter_other (es : List (String × String)) (k k' : String) (h : k' ≠ k) :
    (es.filter (fun e => e.1 != k)).lookup k' = es.lookup k' := by
  induction es with
  | nil => rfl
  | cons e rest ih =>
    cases e with
    | mk a b =>
      by_cases hk : a = k
      · subst hk
        have hne : (k' == a) = false := by
          simp [h]
        have hdrop : ((a, b).1 != a) = false := by
          simp
        simp only [List.filter, hdrop, List.lookup, hne]
        exact ih
      · have hkeep : ((a, b).1 != k) = true := by
          simp [hk]
        simp only [List.filter, hkeep, List.lookup]
        cases hab : (k' == a)
        · exact ih
        · rfl

/-- Writing a key leaves the bindings of the other keys. -/
theorem lookup_mapSet_other (es : List (String × String)) (k v k' : String) (h : k' ≠ k) :
    (mapSet es k v).lookup k' = es.lookup k' := by
  have hne : (k' == k) = false := by
    simp [h]
  simp only [mapSet, List.lookup, hne]
  exact lookup_filter_other es k k' h

/-- When a condition of type available is in the list, the loop sets the URL and
the single Ready=True condition and nothing else. -/
theorem propagateAvailable_found (st : InferenceGraphStatus) (url : Option String)
    (cs : List DeploymentCondition)
    (h : ∃ con ∈ cs, con.Type_ = DeploymentAvailable) :
    propagateAvailable st url cs =
      { st with URL := url, Conditions := [{ Type_ := ConditionReady, Status := ConditionTrue }] } := by
  induction cs with
  | nil =>
    obtain ⟨con, hmem, _⟩ := h
    cases hmem
  | cons c rest ih =>
    by_cases hc : c.Type_ = DeploymentAvailable
    · simp [propagateAvailable, hc]
    · simp only [propagateAvailable, hc, if_false]
      apply ih
      obtain ⟨con, hmem, hcon⟩ := h
      rcases List.mem_cons.mp hmem with rfl | hrest
      · exact absurd hcon hc
      · exact ⟨con, hrest, hcon⟩

/-- When no condition of type available is in the list, the loop changes
nothing. -/
theorem propagateAvailable_absent (st : InferenceGraphStatus) (url : Option String)
    (cs : List DeploymentCondition)
    (h : ∀ con ∈ cs, con.Type_ ≠ DeploymentAvailable) :
    propagateAvailable st url cs = st := by
  induction cs with
  | nil => rfl
  | cons c rest ih =>
    have hc : c.Type_ ≠ DeploymentAvailable := h c (List.mem_cons_self c rest)
    simp only [propagateAvailable, hc, if_false]
    exact ih (fun con hmem => h con (List.mem_cons_of_mem c hmem))

/-- Unfolding of `createInferenceGraphPodSpec` when the serialization
succeeds and the header map has no key "propagate". -/
theorem createInferenceGraphPodSpec_plain (c : Constants)
    (marshal : InferenceGraphSpec → Option String)
    (constructResourceRequirements : InferenceGraph → RouterConfig → ResourceRequirements)
    (graph : InferenceGraph) (config : RouterConfig) (J : String)
    (hJ : marshal graph.Spec = some J)
    (hh : headersLookup config.Headers "propagate" = none) :
    createInferenceGraphPodSpec c marshal constructResourceRequirements graph config =
      some
        { Containers :=
            [{ Name := graph.ObjectMeta.Name, Image := config.Image,
               Args := ["--graph-json", J],
               Resources := constructResourceRequirements graph config, Env := [] }],
          Affinity := graph.Spec.Affinity } := by
  simp only [createInferenceGraphPodSpec, hJ, hh]

/-- Unfolding of `createInferenceGraphPodSpec` when the serialization
succeeds and the header map binds "propagate". -/
theorem createInferenceGraphPodSpec_propagate (c : Constants)
    (marshal : InferenceGraphSpec → Option String)
    (constructResourceRequirements : InferenceGraph → RouterConfig → ResourceRequirements)
    (graph : InferenceGraph) (config : RouterConfig) (J : String) (L : List String)
    (hJ : marshal graph.Spec = some J)
    (hh : headersLookup config.Headers "propagate" = some L) :
    createInferenceGraphPodSpec c marshal constructResourceRequirements graph config =
      some
        { Containers :=
            [{ Name := graph.ObjectMeta.Name, Image := config.Image,
               Args := ["--graph-json", J],
               Resources := constructResourceRequirements graph config,
               Env := [{ Name := c.RouterHeadersPropagateEnvVar,
                         Value := String.intercalate "," L }] }],
          Affinity := graph.Spec.Affinity } := by
  simp only [createInferenceGraphPodSpec, hJ, hh, List.modifyHead]

/-- When the serialization fails `createInferenceGraphPodSpec` returns nil. -/
theorem createInferenceGraphPodSpec_nil (c : Constants)
    (marshal : InferenceGraphSpec → Option String)
    (constructResourceRequirements : InferenceGraph → RouterConfig → ResourceRequirements)
    (graph : InferenceGraph) (config : RouterConfig)
    (hJ : marshal graph.Spec = none) :
    createInferenceGraphPodSpec c marshal constructResourceRequirements graph config = none := by
  simp only [createInferenceGraphPodSpec, hJ]

/-- The label write of `constructGraphObjectMeta` leaves the graph's status. -/
theorem labelledGraph_status (c : Constants) (graph : InferenceGraph) :
    (labelledGraph c graph).Status = graph.Status := rfl

/-- Every run of the handler starts by calling the constructor of the
reconciler with whatever `createInferenceGraphPodSpec` returned, nil included:
there is no check in between. -/
theorem handleInferenceGraphRawDeployment_first_step {ρ : Type} (c : Constants)
    (marshal : InferenceGraphSpec → Option String)
    (constructResourceRequirements : InferenceGraph → RouterConfig → ResourceRequirements)
    (deps : RawKubeCollaborators ρ) (graph : InferenceGraph) (routerConfig : RouterConfig) :
    ∃ tail,
      (handleInferenceGraphRawDeployment c marshal constructResourceRequirements deps graph
        routerConfig).steps =
        HandlerStep.NewRawKubeReconciler
          (createInferenceGraphPodSpec c marshal constructResourceRequirements graph
            routerConfig) :: tail := by
  simp only [handleInferenceGraphRawDeployment]
  cases h0 : deps.NewRawKubeReconciler
      (constructGraphObjectMeta c graph.ObjectMeta.Name graph.ObjectMeta.Namespace
        graph.ObjectMeta.Annotations graph.ObjectMeta.Labels) none
      (createInferenceGraphPodSpec c marshal constructResourceRequirements graph
        routerConfig) with
  | error e => exact ⟨[], by simp⟩
  | ok r =>
    cases h1 : deps.SetDeploymentReference (labelledGraph c graph) r with
    | error e => exact ⟨[HandlerStep.SetDeploymentReference], by simp [h1]⟩
    | ok r1 =>
      cases h2 : deps.SetServiceReference (labelledGraph c graph) r1 with
      | error e =>
        exact ⟨[HandlerStep.SetDeploymentReference, HandlerStep.SetServiceReference],
          by simp [h1, h2]⟩
      | ok r2 =>
        cases h3 : deps.SetAutoscalerReferences (labelledGraph c graph) r2 with
        | error e =>
          exact ⟨[HandlerStep.SetDeploymentReference, HandlerStep.SetServiceReference,
            HandlerStep.SetAutoscalerReferences], by simp [h1, h2, h3]⟩
        | ok r3 =>
          rcases h4 : deps.Reconcile r3 with ⟨out, r4⟩
          cases out with
          | error e =>
            exact ⟨[HandlerStep.SetDeploymentReference, HandlerStep.SetServiceReference,
              HandlerStep.SetAutoscalerReferences, HandlerStep.Reconcile],
              by simp [h1, h2, h3, h4]⟩
          | ok d =>
            exact ⟨[HandlerStep.SetDeploymentReference, HandlerStep.SetServiceReference,
              HandlerStep.SetAutoscalerReferences, HandlerStep.Reconcile,
              HandlerStep.PropagateRawStatus], by simp [h1, h2, h3, h4]⟩

/-- Removing a key leaves the bindings of the other keys of the annotations. -/
theorem mapLookup_without_other (m : ObjectMeta) (key k : String) (h : k ≠ key) :
    mapLookup (withoutAnnotationKey m key).Annotations k = mapLookup m.Annotations k := by
  simp only [withoutAnnotationKey, mapLookup]
  cases m.Annotations with
  | none => rfl
  | some es => exact lookup_filter_other es key k h

/-- A removed key is unbound. -/
theorem lookup_filter_same (es : List (String × String)) (key : String) :
    (es.filter (fun e => e.1 != key)).lookup key = none := by
  induction es with
  | nil => rfl
  | cons e rest ih =>
    cases e with
    | mk a b =>
      by_cases hk : a = key
      · subst hk
        have hdrop : ((a, b).1 != a) = false := by
          simp
        simp only [List.filter, hdrop]
        exact ih
      · have hkeep : ((a, b).1 != key) = true := by
          simp [hk]
        have hne : (key == a) = false := by
          simp only [beq_eq_false_iff_ne, ne_eq]
          exact fun h => hk h.symm
        simp only [List.filter, hkeep, List.lookup, hne]
        exact ih

/-- A removed annotation is unbound. -/
theorem mapLookup_without_same (m : ObjectMeta) (key : String) :
    mapLookup (withoutAnnotationKey m key).Annotations key = none := by
  simp only [withoutAnnotationKey, mapLookup]
  cases m.Annotations with
  | none => rfl
  | some es => exact lookup_filter_same es key

/-- Removing an annotation whose value `ParseInt` rejects changes the parsed
value of no annotation. -/
theorem parsedIntAnnotationValue_without (m : ObjectMeta) (key k : String)
    (hbad : parsedIntAnnotationValue m.Annotations key = none) :
    parsedIntAnnotationValue (withoutAnnotationKey m key).Annotations k =
      parsedIntAnnotationValue m.Annotations k := by
  by_cases hk : k = key
  · subst hk
    rw [hbad]
    simp only [parsedIntAnnotationValue, mapLookup_without_same]
  · simp only [parsedIntAnnotationValue, mapLookup_without_other m key k hk]

/-- The part of C17 that holds: removing an annotation whose value `ParseInt`
rejects, under any key other than the target-utilization key and the graph
metric key (so under the graph target, min-scale or max-scale key), leaves
the spec of the policy `createHPA` returns as it is. -/
theorem createHPA_spec_without_unparsable (c : Constants) (m : ObjectMeta)
    (ext : Option ComponentExtensionSpec) (key : String)
    (hpct : key ≠ c.TargetUtilizationPercentage)
    (hmetric : key ≠ c.InferenceGraphMetricsAnnotationKey)
    (hbad : parsedIntAnnotationValue m.Annotations key = none) :
    (createHPA c (withoutAnnotationKey m key) ext).map (fun hpa => hpa.Spec) =
      (createHPA c m ext).map (fun hpa => hpa.Spec) := by
  have hbase : baseUtilization c (withoutAnnotationKey m key) = baseUtilization c m := by
    simp only [baseUtilization, mapLookup_without_other m key _ (Ne.symm hpct)]
  have hlabels : (withoutAnnotationKey m key).Labels = m.Labels := rfl
  have hname : (withoutAnnotationKey m key).Name = m.Name := rfl
  cases hl : mapLookup m.Labels c.InferenceGraphLabel with
  | some g =>
    have hl2 : mapLookup (withoutAnnotationKey m key).Labels c.InferenceGraphLabel = some g := by
      rw [hlabels]
      exact hl
    rw [createHPA_graph c m ext g _ hl (getHPAMetrics_graph c m ext g hl),
      createHPA_graph c _ ext g _ hl2 (getHPAMetrics_graph c _ ext g hl2)]
    simp only [readAnnotation_eq, parsedIntAnnotationValue_without m key _ hbad, hbase,
      mapLookup_without_other m key _ (Ne.symm hmetric), Option.map_some', clampedHPA, hname]
  | none =>
    have hl2 : mapLookup (withoutAnnotationKey m key).Labels c.InferenceGraphLabel = none := by
      rw [hlabels]
      exact hl
    cases ext with
    | none => rw [createHPA_nil c m hl, createHPA_nil c _ hl2]
    | some e =>
      rw [createHPA_nongraph c m e _ hl (getHPAMetrics_nongraph c m e hl),
        createHPA_nongraph c _ e _ hl2 (getHPAMetrics_nongraph c _ e hl2)]
      simp only [hbase, Option.map_some', clampedHPA, hname]

/-- The loop of `PropagateRawStatus` depends on the conditions through the
sequence of their types alone. -/
theorem propagateAvailable_types (st : InferenceGraphStatus) (url : Option String)
    (cs ds : List DeploymentCondition)
    (h : cs.map (fun con => con.Type_) = ds.map (fun con => con.Type_)) :
    propagateAvailable st url cs = propagateAvailable st url ds := by
  induction cs generalizing ds with
  | nil =>
    cases ds with
    | nil => rfl
    | cons d rest => cases h
  | cons c rest ih =>
    cases ds with
    | nil => cases h
    | cons d rest2 =>
      simp only [List.map_cons, List.cons.injEq] at h
      simp only [propagateAvailable, h.1]
      rw [ih rest2 h.2]

/-- With the serialization `jsonMarshal`, which reports no error on a graph
spec, `createInferenceGraphPodSpec` returns a pod spec for every graph and
router config: the nil result does not arise. -/
theorem createInferenceGraphPodSpec_jsonMarshal_isSome (c : Constants)
    (constructResourceRequirements : InferenceGraph → RouterConfig → ResourceRequirements)
    (graph : InferenceGraph) (config : RouterConfig) :
    (createInferenceGraphPodSpec c jsonMarshal constructResourceRequirements graph
      config).isSome = true := by
  cases hh : headersLookup config.Headers "propagate" with
  | none =>
    rw [createInferenceGraphPodSpec_plain c jsonMarshal constructResourceRequirements graph
      config _ rfl hh]
    rfl
  | some L =>
    rw [createInferenceGraphPodSpec_propagate c jsonMarshal constructResourceRequirements graph
      config _ L rfl hh]
    rfl

/-! ## The claims -/

/-- C1. `createHPA` returns for every identity block that carries the graph
label and for every non-nil extension spec, and whenever it returns, the
policy's `MinReplicas` is set and at least `DefaultMinReplicas`, and its
`MaxReplicas` is at least its `MinReplicas`. -/
theorem createHPA_replica_bounds (c : Constants) (m : ObjectMeta)
    (ext : Option ComponentExtensionSpec) :
    (createHPA c m ext).isSome =
        ((mapLookup m.Labels c.InferenceGraphLabel).isSome || ext.isSome) ∧
      ∀ hpa, createHPA c m ext = some hpa →
        ∃ minR, hpa.Spec.MinReplicas = some minR ∧ c.DefaultMinReplicas ≤ minR ∧
          minR ≤ hpa.Spec.MaxReplicas := by
  refine ⟨createHPA_isSome c m ext, ?_⟩
  intro hpa h
  obtain ⟨a, b, metrics, _, rfl⟩ := createHPA_shape c m ext hpa h
  exact ⟨_, rfl, le_max_right _ _, le_max_right _ _⟩

/-- Witness of C1: a graph identity whose min-scale is below the floor and whose
max-scale is below the resolved minimum; the policy has minimum 1, maximum 1. -/
theorem createHPA_replica_bounds_witness :
    createHPA kserveConstants lowScaleGraphMeta none =
      some (clampedHPA kserveConstants lowScaleGraphMeta (-3) 0 (utilizationMetric "cpu" 80)) ∧
    ∃ minR,
      (clampedHPA kserveConstants lowScaleGraphMeta (-3) 0
        (utilizationMetric "cpu" 80)).Spec.MinReplicas = some minR ∧
      kserveConstants.DefaultMinReplicas ≤ minR ∧
      minR ≤ (clampedHPA kserveConstants lowScaleGraphMeta (-3) 0
        (utilizationMetric "cpu" 80)).Spec.MaxReplicas :=
  ⟨by decide,
    (createHPA_replica_bounds kserveConstants lowScaleGraphMeta none).2
      (clampedHPA kserveConstants lowScaleGraphMeta (-3) 0 (utilizationMetric "cpu" 80))
      (by decide)⟩

/-- C2. On an identity carrying the graph label whose graph target annotation is
accepted by `ParseInt` as a value `v` of the signed 32-bit range,
`getHPAMetrics` produces a single metric with average utilization `v`, for
every extension spec (nil, or with any scale target) and whatever the other
annotations are. -/
theorem getHPAMetrics_graph_target (c : Constants) (m : ObjectMeta)
    (ext : Option ComponentExtensionSpec) (g target : String) (v : Int)
    (hlabel : mapLookup m.Labels c.InferenceGraphLabel = some g)
    (htarget : mapLookup m.Annotations c.InferenceGraphTargetAnnotationKey = some target)
    (hparse : ParseInt target = (v, none))
    (hfits : fitsInt32 v) :
    ∃ name, getHPAMetrics c m ext = some (utilizationMetric name v) := by
  rw [getHPAMetrics_graph c m ext g hlabel]
  simp only [htarget, hparse, if_true, int32_of_fits v hfits.1 hfits.2]
  exact ⟨_, rfl⟩

/-- Witness of C2: graph target "40" beside a target-utilization annotation of
"75" and an extension spec whose scale target is 90. -/
theorem getHPAMetrics_graph_target_witness :
    ∃ name, getHPAMetrics kserveConstants targetGraphMeta (some (scaleTargetExt 90)) =
      some (utilizationMetric name 40) :=
  getHPAMetrics_graph_target kserveConstants targetGraphMeta (some (scaleTargetExt 90))
    "basic-ig" "40" 40 (by decide) (by decide) (by decide) (by decide)

/-- C3, as amended. On an identity without the graph label and an extension
spec whose scale target is a `t` of the signed 32-bit range, `getHPAMetrics`
produces a single metric whose average utilization is `t`; no annotation of
the identity has any effect on it. -/
theorem getHPAMetrics_nongraph_scale_target (c : Constants) (m : ObjectMeta)
    (e : ComponentExtensionSpec) (t : Int)
    (hlabel : mapLookup m.Labels c.InferenceGraphLabel = none)
    (ht : e.ScaleTarget = some t)
    (hfits : fitsInt32 t) :
    ∃ name, getHPAMetrics c m (some e) = some (utilizationMetric name t) := by
  rw [getHPAMetrics_nongraph c m e hlabel]
  simp only [ht, int32_of_fits t hfits.1 hfits.2]
  exact ⟨_, rfl⟩

/-- Witness of C3: scale target 60 on a service identity that carries all four
graph-only annotations. -/
theorem getHPAMetrics_nongraph_scale_target_witness :
    ∃ name, getHPAMetrics kserveConstants annotatedServiceMeta (some (scaleTargetExt 60)) =
      some (utilizationMetric name 60) :=
  getHPAMetrics_nongraph_scale_target kserveConstants annotatedServiceMeta (scaleTargetExt 60) 60
    (by decide) rfl (by decide)

/-- Counterexample to C3 as stated: a scale target of 4294967301 (2^32 + 5) on a
service identity yields average utilization 5. -/
theorem getHPAMetrics_nongraph_scale_target_counterexample :
    mapLookup (serviceMeta []).Labels kserveConstants.InferenceGraphLabel = none ∧
      (scaleTargetExt 4294967301).ScaleTarget = some 4294967301 ∧
      getHPAMetrics kserveConstants (serviceMeta []) (some (scaleTargetExt 4294967301)) =
        some (utilizationMetric "cpu" 5) ∧
      (5 : Int) ≠ 4294967301 := by
  decide

/-- Counterexample to C4 as stated, for both (a) and (b): with the
target-utilization annotation set to "50", a graph identity without graph
target annotation and a service identity whose extension spec declares no
scale target both get average utilization 50, while the default constant is
80. -/
theorem getHPAMetrics_default_counterexample :
    (mapLookup percentageGraphMeta.Labels kserveConstants.InferenceGraphLabel = some "basic-ig" ∧
      mapLookup percentageGraphMeta.Annotations
        kserveConstants.InferenceGraphTargetAnnotationKey = none ∧
      getHPAMetrics kserveConstants percentageGraphMeta none =
        some (utilizationMetric "cpu" 50)) ∧
    (mapLookup percentageServiceMeta.Labels kserveConstants.InferenceGraphLabel = none ∧
      plainExt.ScaleTarget = none ∧
      getHPAMetrics kserveConstants percentageServiceMeta (some plainExt) =
        some (utilizationMetric "cpu" 50)) ∧
    kserveConstants.DefaultCPUUtilization = 80 := by
  decide

/-- C4, as amended. In case (a), a graph-labelled identity whose graph target
annotation is absent or rejected by `ParseInt`, and in case (b), an identity
without the graph label whose extension spec declares no scale target, the
average utilization is the default constant when the identity has no
target-utilization annotation, and it is `p` when that annotation is present
and `Atoi` accepts it as a `p` of the signed 32-bit range; no other annotation
has any effect. -/
theorem getHPAMetrics_default_utilization (c : Constants) (m : ObjectMeta) :
    (∀ (ext : Option ComponentExtensionSpec) (g : String),
        mapLookup m.Labels c.InferenceGraphLabel = some g →
        parsedIntAnnotationValue m.Annotations c.InferenceGraphTargetAnnotationKey = none →
        (mapLookup m.Annotations c.TargetUtilizationPercentage = none →
          ∃ name, getHPAMetrics c m ext =
            some (utilizationMetric name c.DefaultCPUUtilization)) ∧
        (∀ s p, mapLookup m.Annotations c.TargetUtilizationPercentage = some s →
          Atoi s = (p, none) → fitsInt32 p →
          ∃ name, getHPAMetrics c m ext = some (utilizationMetric name p))) ∧
    (∀ (e : ComponentExtensionSpec),
        mapLookup m.Labels c.InferenceGraphLabel = none →
        e.ScaleTarget = none →
        (mapLookup m.Annotations c.TargetUtilizationPercentage = none →
          ∃ name, getHPAMetrics c m (some e) =
            some (utilizationMetric name c.DefaultCPUUtilization)) ∧
        (∀ s p, mapLookup m.Annotations c.TargetUtilizationPercentage = some s →
          Atoi s = (p, none) → fitsInt32 p →
          ∃ name, getHPAMetrics c m (some e) = some (utilizationMetric name p))) := by
  have hbase : ∀ s p, mapLookup m.Annotations c.TargetUtilizationPercentage = some s →
      Atoi s = (p, none) → fitsInt32 p → baseUtilization c m = p := by
    intro s p hpct hp hfits
    simp only [baseUtilization, hpct, hp, int32_of_fits p hfits.1 hfits.2]
  have hdefault : mapLookup m.Annotations c.TargetUtilizationPercentage = none →
      baseUtilization c m = c.DefaultCPUUtilization := by
    intro hpct
    simp only [baseUtilization, hpct]
  constructor
  · intro ext g hlabel hparsed
    have hu : (match mapLookup m.Annotations c.InferenceGraphTargetAnnotationKey with
          | some target =>
            if (ParseInt target).2 = none then int32 (ParseInt target).1
            else baseUtilization c m
          | none => baseUtilization c m) = baseUtilization c m := by
      rw [readAnnotation_eq, hparsed]
    rw [getHPAMetrics_graph c m ext g hlabel, hu]
    constructor
    · intro hpct
      rw [hdefault hpct]
      exact ⟨_, rfl⟩
    · intro s p hpct hp hfits
      rw [hbase s p hpct hp hfits]
      exact ⟨_, rfl⟩
  · intro e hlabel ht
    rw [getHPAMetrics_nongraph c m e hlabel]
    simp only [ht]
    constructor
    · intro hpct
      rw [hdefault hpct]
      exact ⟨_, rfl⟩
    · intro s p hpct hp hfits
      rw [hbase s p hpct hp hfits]
      exact ⟨_, rfl⟩

/-- Witness of C4 as amended: a graph identity whose graph target annotation
does not parse gets the default utilization when it has no target-utilization
annotation, and a service identity with that annotation set to "50" and no
scale target gets 50. -/
theorem getHPAMetrics_default_utilization_witness :
    (∃ name, getHPAMetrics kserveConstants (graphMeta [("serving.kserve.io/target", "forty")])
        none =
      some (utilizationMetric name kserveConstants.DefaultCPUUtilization)) ∧
    (∃ name, getHPAMetrics kserveConstants percentageServiceMeta (some plainExt) =
      some (utilizationMetric name 50)) :=
  ⟨((getHPAMetrics_default_utilization kserveConstants
        (graphMeta [("serving.kserve.io/target", "forty")])).1 none "basic-ig"
      (by decide) (by decide)).1 (by decide),
    ((getHPAMetrics_default_utilization kserveConstants percentageServiceMeta).2 plainExt
      (by decide) rfl).2 "50" 50 (by decide) (by decide) (by decide)⟩

/-- Counterexample to C5 as stated. The min-scale annotation "4294967298"
(2^32 + 2) parses as that integer, and the final minimum is 2, not
max(4294967298, 1); the max-scale annotation "2147483648" (2^31) parses as that
integer, and the final maximum is 1, not max(2147483648, 1). -/
theorem createHPA_graph_replicas_counterexample :
    (parsedIntAnnotationValue (graphMeta [("serving.kserve.io/min-scale", "4294967298")]).Annotations
        kserveConstants.InferenceGraphMinScaleAnnotationKey = some 4294967298 ∧
      (createHPA kserveConstants (graphMeta [("serving.kserve.io/min-scale", "4294967298")])
        none).map (fun hpa => hpa.Spec.MinReplicas) = some (some 2) ∧
      max (4294967298 : Int) kserveConstants.DefaultMinReplicas ≠ 2) ∧
    (parsedIntAnnotationValue (graphMeta [("serving.kserve.io/max-scale", "2147483648")]).Annotations
        kserveConstants.InferenceGraphMaxScaleAnnotationKey = some 2147483648 ∧
      (createHPA kserveConstants (graphMeta [("serving.kserve.io/max-scale", "2147483648")])
        none).map (fun hpa => (hpa.Spec.MinReplicas, hpa.Spec.MaxReplicas)) =
          some (some 1, 1) ∧
      max (2147483648 : Int) 1 ≠ 1) := by
  decide

/-- C5, as amended. On an identity carrying the graph label, with a global
floor that is not negative, `createHPA` returns (for every extension spec, nil
included) a policy with a minimum `minR` such that: when min-scale parses as a
`v` of the signed 32-bit range, `minR` is max(v, floor); when min-scale is
absent or does not parse, `minR` is the floor; when max-scale parses as a `w`
of the signed 32-bit range, the maximum is max(w, `minR`); when max-scale is
absent or does not parse, the maximum is `minR`. Each of the four statements
holds on its own condition, whatever the other annotation is. -/
theorem createHPA_graph_replicas (c : Constants) (m : ObjectMeta)
    (ext : Option ComponentExtensionSpec) (g : String)
    (hlabel : mapLookup m.Labels c.InferenceGraphLabel = some g)
    (hfloor : 0 ≤ c.DefaultMinReplicas) :
    ∃ hpa minR, createHPA c m ext = some hpa ∧
      hpa.Spec.MinReplicas = some minR ∧
      (∀ v, parsedIntAnnotationValue m.Annotations c.InferenceGraphMinScaleAnnotationKey =
          some v → fitsInt32 v → minR = max v c.DefaultMinReplicas) ∧
      (parsedIntAnnotationValue m.Annotations c.InferenceGraphMinScaleAnnotationKey = none →
        minR = c.DefaultMinReplicas) ∧
      (∀ w, parsedIntAnnotationValue m.Annotations c.InferenceGraphMaxScaleAnnotationKey =
          some w → fitsInt32 w → hpa.Spec.MaxReplicas = max w minR) ∧
      (parsedIntAnnotationValue m.Annotations c.InferenceGraphMaxScaleAnnotationKey = none →
        hpa.Spec.MaxReplicas = minR) := by
  rw [createHPA_graph c m ext g _ hlabel (getHPAMetrics_graph c m ext g hlabel)]
  refine ⟨_, _, rfl, rfl, ?_, ?_, ?_, ?_⟩
  · intro v hv hfits
    simp only [readAnnotation_eq, hv, int32_of_fits v hfits.1 hfits.2]
  · intro hv
    simp only [readAnnotation_eq, hv, max_self]
  · intro w hw hfits
    simp only [clampedHPA, readAnnotation_eq, hw, int32_of_fits w hfits.1 hfits.2]
  · intro hw
    simp only [clampedHPA, readAnnotation_eq, hw]
    have hle : c.DefaultMinReplicas ≤
        max (match parsedIntAnnotationValue m.Annotations
              c.InferenceGraphMinScaleAnnotationKey with
            | some v => int32 v
            | none => c.DefaultMinReplicas) c.DefaultMinReplicas := le_max_right _ _
    omega

/-- Witness of C5 as amended. Min-scale "2" with max-scale "7" gives minimum 2
and maximum 7; min-scale "2" beside a max-scale out of the 32-bit range still
gives minimum 2; max-scale "7" beside a min-scale out of the 32-bit range still
gives a maximum of max(7, minimum). -/
theorem createHPA_graph_replicas_witness :
    (∃ hpa, createHPA kserveConstants scaledGraphMeta none = some hpa ∧
        hpa.Spec.MinReplicas = some 2 ∧ hpa.Spec.MaxReplicas = 7) ∧
      (∃ hpa, createHPA kserveConstants
          (graphMeta [("serving.kserve.io/min-scale", "2"),
            ("serving.kserve.io/max-scale", "2147483648")]) none = some hpa ∧
        hpa.Spec.MinReplicas = some 2) ∧
      (∃ hpa minR, createHPA kserveConstants
          (graphMeta [("serving.kserve.io/min-scale", "4294967298"),
            ("serving.kserve.io/max-scale", "7")]) none = some hpa ∧
        hpa.Spec.MinReplicas = some minR ∧ hpa.Spec.MaxReplicas = max 7 minR) := by
  refine ⟨?_, ?_, ?_⟩
  · obtain ⟨hpa, minR, hc, hm, hminv, _, hmaxw, _⟩ :=
      createHPA_graph_replicas kserveConstants scaledGraphMeta none "basic-ig"
        (by decide) (by decide)
    have h2 : minR = 2 := hminv 2 (by decide) (by decide)
    have h7 := hmaxw 7 (by decide) (by decide)
    subst h2
    exact ⟨hpa, hc, hm, h7⟩
  · obtain ⟨hpa, minR, hc, hm, hminv, _, _, _⟩ :=
      createHPA_graph_replicas kserveConstants
        (graphMeta [("serving.kserve.io/min-scale", "2"),
          ("serving.kserve.io/max-scale", "2147483648")]) none "basic-ig"
        (by decide) (by decide)
    have h2 : minR = 2 := hminv 2 (by decide) (by decide)
    subst h2
    exact ⟨hpa, hc, hm⟩
  · obtain ⟨hpa, minR, hc, hm, _, _, hmaxw, _⟩ :=
      createHPA_graph_replicas kserveConstants
        (graphMeta [("serving.kserve.io/min-scale", "4294967298"),
          ("serving.kserve.io/max-scale", "7")]) none "basic-ig"
        (by decide) (by decide)
    exact ⟨hpa, minR, hc, hm, hmaxw 7 (by decide) (by decide)⟩

/-- Counterexample to C6 as stated: on a service identity, min-replicas
4294967298 (2^32 + 2) gives final minimum 2, not max(4294967298, 1), and
max-replicas 4294967303 (2^32 + 7) gives final maximum 7, not
max(4294967303, 1). -/
theorem createHPA_nongraph_replicas_counterexample :
    mapLookup (serviceMeta []).Labels kserveConstants.InferenceGraphLabel = none ∧
    ((createHPA kserveConstants (serviceMeta []) (some (replicasExt (some 4294967298) 3))).map
        (fun hpa => hpa.Spec.MinReplicas) = some (some 2) ∧
      max (4294967298 : Int) kserveConstants.DefaultMinReplicas ≠ 2) ∧
    ((createHPA kserveConstants (serviceMeta []) (some (replicasExt none 4294967303))).map
        (fun hpa => (hpa.Spec.MinReplicas, hpa.Spec.MaxReplicas)) = some (some 1, 7) ∧
      max (4294967303 : Int) 1 ≠ 7) := by
  decide

/-- C6, as amended. On an identity without the graph label and a non-nil
extension spec whose min-replicas (if present) and max-replicas fit the signed
32-bit range, `createHPA` returns a policy whose minimum is max(m, floor), with
`m` the min-replicas field if present and the floor otherwise, and whose
maximum is max(max-replicas, final minimum). Both values are functions of the
extension spec and the floor alone: no annotation of the identity enters. -/
theorem createHPA_nongraph_replicas (c : Constants) (m : ObjectMeta)
    (e : ComponentExtensionSpec)
    (hlabel : mapLookup m.Labels c.InferenceGraphLabel = none)
    (hmin : ∀ r, e.MinReplicas = some r → fitsInt32 r)
    (hmax : fitsInt32 e.MaxReplicas) :
    ∃ hpa, createHPA c m (some e) = some hpa ∧
      hpa.Spec.MinReplicas = some (specServiceMinReplicas c e) ∧
      hpa.Spec.MaxReplicas = specServiceMaxReplicas c e := by
  rw [createHPA_nongraph c m e _ hlabel (getHPAMetrics_nongraph c m e hlabel)]
  refine ⟨_, rfl, ?_, ?_⟩
  · simp only [clampedHPA, specServiceMinReplicas]
    cases hr : e.MinReplicas with
    | none => rfl
    | some r => simp only [int32_of_fits r (hmin r hr).1 (hmin r hr).2]
  · simp only [clampedHPA, specServiceMaxReplicas, specServiceMinReplicas,
      int32_of_fits e.MaxReplicas hmax.1 hmax.2]
    cases hr : e.MinReplicas with
    | none => rfl
    | some r => simp only [int32_of_fits r (hmin r hr).1 (hmin r hr).2]

/-- Witness of C6 as amended: min-replicas 0 (raised to the floor 1) and
max-replicas 5 on a service identity that carries min-scale "2" and max-scale
"7" annotations besides. -/
theorem createHPA_nongraph_replicas_witness :
    ∃ hpa, createHPA kserveConstants annotatedServiceMeta (some (replicasExt (some 0) 5)) =
        some hpa ∧
      hpa.Spec.MinReplicas = some (specServiceMinReplicas kserveConstants
        (replicasExt (some 0) 5)) ∧
      hpa.Spec.MaxReplicas = specServiceMaxReplicas kserveConstants (replicasExt (some 0) 5) :=
  createHPA_nongraph_replicas kserveConstants annotatedServiceMeta (replicasExt (some 0) 5)
    (by decide)
    (fun r hr => by
      have h0 : r = 0 := (Option.some.inj hr).symm
      subst h0
      decide)
    (by decide)

/-- C7. The resource name of the metric `getHPAMetrics` produces: on an identity
carrying the graph label it is the value of the graph metric annotation when
present and CPU otherwise, for every extension spec (nil included); on an
identity without the graph label it is the extension spec's scale metric when
declared and CPU otherwise, for every annotation set. -/
theorem getHPAMetrics_resource_name (c : Constants) (m : ObjectMeta) :
    (∀ (ext : Option ComponentExtensionSpec) (g : String),
        mapLookup m.Labels c.InferenceGraphLabel = some g →
        ∃ u, getHPAMetrics c m ext =
          some (utilizationMetric
            ((mapLookup m.Annotations c.InferenceGraphMetricsAnnotationKey).getD ResourceCPU) u)) ∧
    (∀ (e : ComponentExtensionSpec),
        mapLookup m.Labels c.InferenceGraphLabel = none →
        ∃ u, getHPAMetrics c m (some e) =
          some (utilizationMetric (e.ScaleMetric.getD ResourceCPU) u)) := by
  constructor
  · intro ext g hlabel
    rw [getHPAMetrics_graph c m ext g hlabel]
    cases hm : mapLookup m.Annotations c.InferenceGraphMetricsAnnotationKey with
    | none => exact ⟨_, rfl⟩
    | some metric => exact ⟨_, rfl⟩
  · intro e hlabel
    rw [getHPAMetrics_nongraph c m e hlabel]
    cases hm : e.ScaleMetric with
    | none => exact ⟨_, rfl⟩
    | some sm => exact ⟨_, rfl⟩

/-- Witness of C7: on a graph identity with metric annotation "memory" the
extension spec's scale metric "rps" is ignored. -/
theorem getHPAMetrics_resource_name_witness :
    (mapLookup metricGraphMeta.Annotations
        kserveConstants.InferenceGraphMetricsAnnotationKey).getD ResourceCPU = "memory" ∧
      ∃ u, getHPAMetrics kserveConstants metricGraphMeta (some metricExt) =
        some (utilizationMetric
          ((mapLookup metricGraphMeta.Annotations
            kserveConstants.InferenceGraphMetricsAnnotationKey).getD ResourceCPU) u) :=
  ⟨by decide,
    (getHPAMetrics_resource_name kserveConstants metricGraphMeta).1 (some metricExt) "basic-ig"
      (by decide)⟩

/-- C8. `createHPA` returns for every identity that carries the graph label and
for every non-nil extension spec, and whenever it returns, the policy's scale
target reference is exactly apps/v1, Deployment, the identity's name; its
object metadata is the identity block; its behavior block is present and
empty; and its metric list has exactly one entry, of resource type, with
target type "Utilization" and an average utilization that is set. -/
theorem createHPA_fixed_fields (c : Constants) (m : ObjectMeta)
    (ext : Option ComponentExtensionSpec) :
    (createHPA c m ext).isSome =
        ((mapLookup m.Labels c.InferenceGraphLabel).isSome || ext.isSome) ∧
      ∀ hpa, createHPA c m ext = some hpa →
        hpa.Spec.ScaleTargetRef =
            { APIVersion := "apps/v1", Kind := "Deployment", Name := m.Name } ∧
          hpa.ObjectMeta = m ∧
          hpa.Spec.Behavior = some { ScaleUp := none, ScaleDown := none } ∧
          ∃ name u, hpa.Spec.Metrics =
            [{ Type_ := "Resource",
               Resource := some
                 { Name := name,
                   Target := { Type_ := "Utilization", Value := none, AverageValue := none,
                               AverageUtilization := some u } } }] := by
  refine ⟨createHPA_isSome c m ext, ?_⟩
  intro hpa h
  obtain ⟨a, b, metrics, hm, rfl⟩ := createHPA_shape c m ext hpa h
  obtain ⟨name, u, rfl⟩ := getHPAMetrics_shape c m ext metrics hm
  exact ⟨rfl, rfl, rfl, name, u, rfl⟩

/-- Witness of C8 on the service identity with an extension spec. -/
theorem createHPA_fixed_fields_witness :
    (clampedHPA kserveConstants annotatedServiceMeta 1 3
        (utilizationMetric "cpu" 80)).Spec.ScaleTargetRef =
        { APIVersion := "apps/v1", Kind := "Deployment", Name := annotatedServiceMeta.Name } ∧
      (clampedHPA kserveConstants annotatedServiceMeta 1 3
        (utilizationMetric "cpu" 80)).ObjectMeta = annotatedServiceMeta ∧
      (clampedHPA kserveConstants annotatedServiceMeta 1 3
        (utilizationMetric "cpu" 80)).Spec.Behavior = some { ScaleUp := none, ScaleDown := none } ∧
      ∃ name u, (clampedHPA kserveConstants annotatedServiceMeta 1 3
        (utilizationMetric "cpu" 80)).Spec.Metrics =
          [{ Type_ := "Resource",
             Resource := some
               { Name := name,
                 Target := { Type_ := "Utilization", Value := none, AverageValue := none,
                             AverageUtilization := some u } } }] :=
  (createHPA_fixed_fields kserveConstants annotatedServiceMeta (some plainExt)).2
    (clampedHPA kserveConstants annotatedServiceMeta 1 3 (utilizationMetric "cpu" 80))
    (by decide)

/-- C9. When the `Get` call returns a live policy whose spec is semantically
equal to the desired spec, `Reconcile` issues the `Get` call and nothing else
(no create, no update), leaves the cluster state as the `Get` call left it,
and returns exactly the live object with a nil error, whatever the live
object's metadata and status are. -/
theorem Reconcile_noop {σ : Type} (r : HPAReconciler σ) (w : World σ)
    (live : HorizontalPodAutoscaler) (s1 : σ)
    (hget : r.client.Get r.key w.state = (Except.ok live, s1))
    (heq : semanticHPAEquals r.HPA live = true) :
    (r.Reconcile w).hpa = some live ∧ (r.Reconcile w).err = none ∧
      (r.Reconcile w).world.calls = w.calls ++ [ClientCall.Get r.key] ∧
      (r.Reconcile w).world.state = s1 := by
  simp only [HPAReconciler.key] at hget
  simp [HPAReconciler.Reconcile, HPAReconciler.checkHPAExist, HPAReconciler.key, hget, heq]

/-- Witness of C9: the live object differs from the desired one in labels,
annotations, resource version, owner references and status, and is returned
after the single `Get` call. -/
theorem Reconcile_noop_witness :
    liveHPA.ObjectMeta ≠ desiredHPA.ObjectMeta ∧ liveHPA.Status ≠ desiredHPA.Status ∧
      ((fixedReconciler (Except.ok liveHPA)).Reconcile emptyWorld).hpa = some liveHPA ∧
      ((fixedReconciler (Except.ok liveHPA)).Reconcile emptyWorld).err = none ∧
      ((fixedReconciler (Except.ok liveHPA)).Reconcile emptyWorld).world.calls =
        emptyWorld.calls ++ [ClientCall.Get (fixedReconciler (Except.ok liveHPA)).key] ∧
      ((fixedReconciler (Except.ok liveHPA)).Reconcile emptyWorld).world.state = () :=
  ⟨by decide, by decide,
    Reconcile_noop (fixedReconciler (Except.ok liveHPA)) emptyWorld liveHPA () rfl (by decide)⟩

/-- C10. When the `Get` call fails with a not-found error, `Reconcile` issues
after it exactly one `Create` call, with the desired object, and no `Update`
call, and when that call succeeds it returns the desired object `r.HPA` (with
the contents the call left in it) and a nil error. When the `Get` call fails
with any other error `e`, `Reconcile` issues no further call and returns no
object and the error `e`. -/
theorem Reconcile_get_error {σ : Type} (r : HPAReconciler σ) (w : World σ)
    (e : APIError) (s1 : σ)
    (hget : r.client.Get r.key w.state = (Except.error e, s1)) :
    (e.IsNotFound = true →
        (r.Reconcile w).world.calls =
            w.calls ++ [ClientCall.Get r.key, ClientCall.Create r.HPA] ∧
          (r.Reconcile w).world.state = (r.client.Create r.HPA s1).state ∧
          ((r.client.Create r.HPA s1).err = none →
            (r.Reconcile w).hpa = some (r.client.Create r.HPA s1).obj ∧
              (r.Reconcile w).err = none)) ∧
      (e.IsNotFound = false →
        (r.Reconcile w).world.calls = w.calls ++ [ClientCall.Get r.key] ∧
          (r.Reconcile w).world.state = s1 ∧
          (r.Reconcile w).hpa = none ∧ (r.Reconcile w).err = some e) := by
  simp only [HPAReconciler.key] at hget
  constructor
  · intro hnf
    refine ⟨?_, ?_, ?_⟩
    · simp only [HPAReconciler.Reconcile, HPAReconciler.checkHPAExist, HPAReconciler.key, hget,
        hnf, if_true]
      cases hc : (r.client.Create r.HPA s1).err <;> simp
    · simp only [HPAReconciler.Reconcile, HPAReconciler.checkHPAExist, hget, hnf, if_true]
      cases hc : (r.client.Create r.HPA s1).err <;> simp
    · intro hok
      simp [HPAReconciler.Reconcile, HPAReconciler.checkHPAExist, hget, hnf, hok]
  · intro hnf
    simp [HPAReconciler.Reconcile, HPAReconciler.checkHPAExist, HPAReconciler.key, hget, hnf]

/-- Witness of C10: on a not-found answer the desired object is created and
returned (the client of the example leaves the object as it was passed); on a
timeout nothing is written and the timeout is returned. -/
theorem Reconcile_get_error_witness :
    (((fixedReconciler (Except.error notFoundError)).Reconcile emptyWorld).world.calls =
        [ClientCall.Get { Namespace := "basic-ig-namespace", Name := "basic-ig" },
          ClientCall.Create desiredHPA] ∧
      ((fixedReconciler (Except.error notFoundError)).Reconcile emptyWorld).hpa =
        some desiredHPA ∧
      ((fixedReconciler (Except.error notFoundError)).Reconcile emptyWorld).err = none) ∧
    (((fixedReconciler (Except.error timeoutError)).Reconcile emptyWorld).world.calls =
        [ClientCall.Get { Namespace := "basic-ig-namespace", Name := "basic-ig" }] ∧
      ((fixedReconciler (Except.error timeoutError)).Reconcile emptyWorld).hpa = none ∧
      ((fixedReconciler (Except.error timeoutError)).Reconcile emptyWorld).err =
        some timeoutError) :=
  have h := (Reconcile_get_error (fixedReconciler (Except.error notFoundError)) emptyWorld
    notFoundError () rfl).1 rfl
  have k := (Reconcile_get_error (fixedReconciler (Except.error timeoutError)) emptyWorld
    timeoutError () rfl).2 rfl
  ⟨⟨h.1, (h.2.2 rfl).1, (h.2.2 rfl).2⟩, ⟨k.1, k.2.2.1, k.2.2.2⟩⟩

/-- Counterexample to C11 as stated: the live object has its own labels,
resource version and owner reference, and the object passed to `Update` is the
desired object, with the desired metadata, not the live object's metadata with
the desired spec. -/
theorem Reconcile_update_counterexample :
    semanticHPAEquals desiredHPA staleHPA = false ∧
      ((fixedReconciler (Except.ok staleHPA)).Reconcile emptyWorld).world.calls =
        [ClientCall.Get { Namespace := "basic-ig-namespace", Name := "basic-ig" },
          ClientCall.Update desiredHPA] ∧
      desiredHPA ≠ mergedOnto staleHPA desiredHPA ∧
      desiredHPA.ObjectMeta ≠ staleHPA.ObjectMeta := by
  decide

/-- C11, as amended. When the `Get` call returns a live policy whose spec is
not semantically equal to the desired spec, `Reconcile` issues after it
exactly one `Update` call and no `Create` call; the object passed to `Update`
is the desired object `r.HPA` itself (desired metadata, desired spec), and when
the call succeeds `r.HPA` is returned (with the contents the call left in it)
with a nil error. -/
theorem Reconcile_update {σ : Type} (r : HPAReconciler σ) (w : World σ)
    (live : HorizontalPodAutoscaler) (s1 : σ)
    (hget : r.client.Get r.key w.state = (Except.ok live, s1))
    (hne : semanticHPAEquals r.HPA live = false) :
    (r.Reconcile w).world.calls =
        w.calls ++ [ClientCall.Get r.key, ClientCall.Update r.HPA] ∧
      (r.Reconcile w).world.state = (r.client.Update r.HPA s1).state ∧
      ((r.client.Update r.HPA s1).err = none →
        (r.Reconcile w).hpa = some (r.client.Update r.HPA s1).obj ∧
          (r.Reconcile w).err = none) := by
  rw [Reconcile_found_differs r w live s1 hget hne]
  refine ⟨rfl, rfl, fun hok => ?_⟩
  simp [hok]

/-- Witness of C11 as amended: the stale live object is replaced through one
`Update` call with the desired object, which is returned. -/
theorem Reconcile_update_witness :
    ((fixedReconciler (Except.ok staleHPA)).Reconcile emptyWorld).world.calls =
        emptyWorld.calls ++ [ClientCall.Get (fixedReconciler (Except.ok staleHPA)).key,
          ClientCall.Update desiredHPA] ∧
      ((fixedReconciler (Except.ok staleHPA)).Reconcile emptyWorld).hpa = some desiredHPA ∧
      ((fixedReconciler (Except.ok staleHPA)).Reconcile emptyWorld).err = none :=
  have h := Reconcile_update (fixedReconciler (Except.ok staleHPA)) emptyWorld staleHPA ()
    rfl (by decide)
  ⟨h.1, (h.2.2 rfl).1, (h.2.2 rfl).2⟩

/-- C12. Over a client that obeys the store laws (a successful create or update
makes the written spec the live one, and reading changes nothing), for every
desired policy and every initial state of the store: when a first `Reconcile`
succeeds, a second `Reconcile` with the same desired policy, run on the world
the first one left, issues its `Get` call and nothing else (no create, no
update), returns a nil error, and returns an object whose spec is the desired
spec. -/
theorem Reconcile_idempotent {σ : Type} (r : HPAReconciler σ) (w : World σ)
    (hstore : StoreLaws r.client)
    (hok : (r.Reconcile w).err = none) :
    (r.Reconcile (r.Reconcile w).world).world.calls =
        (r.Reconcile w).world.calls ++ [ClientCall.Get r.key] ∧
      (r.Reconcile (r.Reconcile w).world).err = none ∧
      ∃ obj, (r.Reconcile (r.Reconcile w).world).hpa = some obj ∧ obj.Spec = r.HPA.Spec := by
  have hs1 := hstore.get_state r.key w.state
  cases hfst : (r.client.Get r.key w.state).1 with
  | error e =>
    have hget : r.client.Get r.key w.state = (Except.error e, w.state) := Prod.ext hfst hs1
    cases hnf : e.IsNotFound with
    | false =>
      rw [Reconcile_getFailed r w e w.state hget hnf] at hok
      cases hok
    | true =>
      rw [Reconcile_notFound r w e w.state hget hnf] at hok ⊢
      obtain ⟨live, hlive, hspec⟩ := hstore.create_live r.HPA w.state hok
      exact Reconcile_settled r _ hstore.get_state live hlive hspec
  | ok live =>
    have hget : r.client.Get r.key w.state = (Except.ok live, w.state) := Prod.ext hfst hs1
    cases heq : semanticHPAEquals r.HPA live with
    | true =>
      rw [Reconcile_found_equal r w live w.state hget heq]
      have hspec : live.Spec = r.HPA.Spec := by
        simp only [semanticHPAEquals, decide_eq_true_eq] at heq
        exact heq.symm
      exact Reconcile_settled r _ hstore.get_state live hfst hspec
    | false =>
      rw [Reconcile_found_differs r w live w.state hget heq] at hok ⊢
      obtain ⟨live2, hlive, hspec⟩ := hstore.update_live r.HPA w.state hok
      exact Reconcile_settled r _ hstore.get_state live2 hlive hspec

/-- Witness of C12 on the store client, from each kind of initial state: the
policy absent, live with the desired spec, live with another spec. -/
theorem Reconcile_idempotent_witness :
    (∃ obj, (storeReconciler.Reconcile (storeReconciler.Reconcile (storeWorld [])).world).hpa =
        some obj ∧ obj.Spec = desiredHPA.Spec) ∧
    (∃ obj, (storeReconciler.Reconcile
        (storeReconciler.Reconcile (storeWorld [liveHPA])).world).hpa =
        some obj ∧ obj.Spec = desiredHPA.Spec) ∧
    (storeReconciler.Reconcile (storeReconciler.Reconcile (storeWorld [staleHPA])).world).world.calls =
        (storeReconciler.Reconcile (storeWorld [staleHPA])).world.calls ++
          [ClientCall.Get storeReconciler.key] ∧
    (storeReconciler.Reconcile (storeWorld [staleHPA])).world.calls =
        [ClientCall.Get storeReconciler.key, ClientCall.Update desiredHPA] :=
  ⟨(Reconcile_idempotent storeReconciler (storeWorld []) storeClient_laws (by decide)).2.2,
    (Reconcile_idempotent storeReconciler (storeWorld [liveHPA]) storeClient_laws
      (by decide)).2.2,
    (Reconcile_idempotent storeReconciler (storeWorld [staleHPA]) storeClient_laws
      (by decide)).1,
    by decide⟩

/-- C18. In every run `Reconcile` issues its `Get` call and after it at most one
write call, a `Create` or an `Update` of `r.HPA`. When the `Create` call fails
with an error, or the `Update` call does, `Reconcile` returns no object and
that very error, and the failed write is the last call of the run. -/
theorem Reconcile_write_failure {σ : Type} (r : HPAReconciler σ) (w : World σ) :
    (∃ tail, (r.Reconcile w).world.calls = w.calls ++ ClientCall.Get r.key :: tail ∧
        (tail = [] ∨ tail = [ClientCall.Create r.HPA] ∨ tail = [ClientCall.Update r.HPA])) ∧
      (∀ e s1 err, r.client.Get r.key w.state = (Except.error e, s1) →
        e.IsNotFound = true → (r.client.Create r.HPA s1).err = some err →
        (r.Reconcile w).hpa = none ∧ (r.Reconcile w).err = some err ∧
          (r.Reconcile w).world.calls =
            w.calls ++ [ClientCall.Get r.key, ClientCall.Create r.HPA]) ∧
      (∀ live s1 err, r.client.Get r.key w.state = (Except.ok live, s1) →
        semanticHPAEquals r.HPA live = false → (r.client.Update r.HPA s1).err = some err →
        (r.Reconcile w).hpa = none ∧ (r.Reconcile w).err = some err ∧
          (r.Reconcile w).world.calls =
            w.calls ++ [ClientCall.Get r.key, ClientCall.Update r.HPA]) := by
  refine ⟨?_, ?_, ?_⟩
  · rcases hg : r.client.Get r.key w.state with ⟨res, s1⟩
    cases res with
    | error e =>
      cases hnf : e.IsNotFound with
      | false =>
        rw [Reconcile_getFailed r w e s1 hg hnf]
        exact ⟨[], rfl, Or.inl rfl⟩
      | true =>
        rw [Reconcile_notFound r w e s1 hg hnf]
        exact ⟨[ClientCall.Create r.HPA], rfl, Or.inr (Or.inl rfl)⟩
    | ok live =>
      cases heq : semanticHPAEquals r.HPA live with
      | true =>
        rw [Reconcile_found_equal r w live s1 hg heq]
        exact ⟨[], rfl, Or.inl rfl⟩
      | false =>
        rw [Reconcile_found_differs r w live s1 hg heq]
        exact ⟨[ClientCall.Update r.HPA], rfl, Or.inr (Or.inr rfl)⟩
  · intro e s1 err hg hnf herr
    rw [Reconcile_notFound r w e s1 hg hnf]
    simp [herr]
  · intro live s1 err hg hne herr
    rw [Reconcile_found_differs r w live s1 hg hne]
    simp [herr]

/-- Witness of C18: a `Create` rejected with a conflict after a not-found
answer, and an `Update` rejected with a conflict on a stale live object. -/
theorem Reconcile_write_failure_witness :
    (((failingReconciler (Except.error notFoundError) conflictError).Reconcile emptyWorld).hpa =
        none ∧
      ((failingReconciler (Except.error notFoundError) conflictError).Reconcile emptyWorld).err =
        some conflictError ∧
      ((failingReconciler (Except.error notFoundError) conflictError).Reconcile
          emptyWorld).world.calls =
        emptyWorld.calls ++
          [ClientCall.Get (failingReconciler (Except.error notFoundError) conflictError).key,
            ClientCall.Create desiredHPA]) ∧
    (((failingReconciler (Except.ok staleHPA) conflictError).Reconcile emptyWorld).hpa = none ∧
      ((failingReconciler (Except.ok staleHPA) conflictError).Reconcile emptyWorld).err =
        some conflictError ∧
      ((failingReconciler (Except.ok staleHPA) conflictError).Reconcile emptyWorld).world.calls =
        emptyWorld.calls ++
          [ClientCall.Get (failingReconciler (Except.ok staleHPA) conflictError).key,
            ClientCall.Update desiredHPA]) :=
  ⟨(Reconcile_write_failure (failingReconciler (Except.error notFoundError) conflictError)
      emptyWorld).2.1 notFoundError () conflictError rfl rfl rfl,
    (Reconcile_write_failure (failingReconciler (Except.ok staleHPA) conflictError)
      emptyWorld).2.2 staleHPA () conflictError rfl (by decide) rfl⟩

/-- C13. For every name, namespace and optional annotation and label maps,
`constructGraphObjectMeta` returns (it is total) an identity block with that
name and namespace, a non-nil annotation map holding exactly the supplied
annotations (empty when none were supplied), and a non-nil label map in which
the graph label is bound to the name, whatever the caller had under that key,
and every other key is bound as in the supplied labels (unbound when none were
supplied). -/
theorem constructGraphObjectMeta_spec (c : Constants) (name namespace_ : String)
    (annotations labels : StringMap) :
    (constructGraphObjectMeta c name namespace_ annotations labels).Name = name ∧
      (constructGraphObjectMeta c name namespace_ annotations labels).Namespace = namespace_ ∧
      (constructGraphObjectMeta c name namespace_ annotations labels).Annotations =
        some (annotations.getD []) ∧
      (∃ ls, (constructGraphObjectMeta c name namespace_ annotations labels).Labels = some ls) ∧
      mapLookup (constructGraphObjectMeta c name namespace_ annotations labels).Labels
        c.InferenceGraphLabel = some name ∧
      ∀ k, k ≠ c.InferenceGraphLabel →
        mapLookup (constructGraphObjectMeta c name namespace_ annotations labels).Labels k =
          mapLookup labels k := by
  refine ⟨rfl, rfl, ?_, ⟨_, rfl⟩, ?_, ?_⟩
  · cases annotations <;> rfl
  · simp only [constructGraphObjectMeta, mapLookup]
    exact lookup_mapSet_same _ _ _
  · intro k hk
    simp only [constructGraphObjectMeta, mapLookup]
    rw [lookup_mapSet_other _ _ _ _ hk]
    cases labels <;> rfl

/-- Witness of C13: the caller's labels already bind the graph label (to
"other") and bind "test"; the result binds the graph label to the name and
keeps "test". -/
theorem constructGraphObjectMeta_spec_witness :
    mapLookup (constructGraphObjectMeta kserveConstants "basic-ig" "basic-ig-namespace"
        (some [("test", "test")])
        (some [("serving.kserve.io/inferencegraph", "other"), ("test", "test")])).Labels
        "serving.kserve.io/inferencegraph" = some "basic-ig" ∧
      mapLookup (constructGraphObjectMeta kserveConstants "basic-ig" "basic-ig-namespace"
        (some [("test", "test")])
        (some [("serving.kserve.io/inferencegraph", "other"), ("test", "test")])).Labels
        "test" =
      mapLookup (some [("serving.kserve.io/inferencegraph", "other"), ("test", "test")])
        "test" :=
  have h := constructGraphObjectMeta_spec kserveConstants "basic-ig" "basic-ig-namespace"
    (some [("test", "test")])
    (some [("serving.kserve.io/inferencegraph", "other"), ("test", "test")])
  ⟨h.2.2.2.2.1, h.2.2.2.2.2 "test" (by decide)⟩

/-- C16. For every prior graph status, deployment and URL, `PropagateRawStatus`
returns (it is total) a status whose observed generation is the deployment's.
When the deployment's conditions contain one of type available, the status has
the supplied URL and exactly one condition, Ready=True, and whatever follows
the first available condition in the list has no effect on the result. When
they contain none, URL and conditions are as before. The annotations of the
status are never touched. -/
theorem PropagateRawStatus_spec (st : InferenceGraphStatus) (d : Deployment)
    (url : Option String) :
    (PropagateRawStatus st d url).ObservedGeneration = d.Status.ObservedGeneration ∧
      (PropagateRawStatus st d url).Annotations = st.Annotations ∧
      ((∃ con ∈ d.Status.Conditions, con.Type_ = DeploymentAvailable) →
        (PropagateRawStatus st d url).URL = url ∧
          (PropagateRawStatus st d url).Conditions =
            [{ Type_ := ConditionReady, Status := ConditionTrue }]) ∧
      ((∀ con ∈ d.Status.Conditions, con.Type_ ≠ DeploymentAvailable) →
        (PropagateRawStatus st d url).URL = st.URL ∧
          (PropagateRawStatus st d url).Conditions = st.Conditions) ∧
      (∀ (before after after2 : List DeploymentCondition) (first : DeploymentCondition),
        first.Type_ = DeploymentAvailable →
        PropagateRawStatus st (withConditions d (before ++ first :: after)) url =
          PropagateRawStatus st (withConditions d (before ++ first :: after2)) url) := by
  have hann : (PropagateRawStatus st d url).Annotations = st.Annotations := by
    by_cases h : ∃ con ∈ d.Status.Conditions, con.Type_ = DeploymentAvailable
    · simp only [PropagateRawStatus, propagateAvailable_found st url _ h]
    · have h2 : ∀ con ∈ d.Status.Conditions, con.Type_ ≠ DeploymentAvailable := by
        intro con hmem hcon
        exact h ⟨con, hmem, hcon⟩
      simp only [PropagateRawStatus, propagateAvailable_absent st url _ h2]
  refine ⟨rfl, hann, ?_, ?_, ?_⟩
  · intro h
    simp only [PropagateRawStatus, propagateAvailable_found st url _ h, and_self]
  · intro h
    simp only [PropagateRawStatus, propagateAvailable_absent st url _ h, and_self]
  · intro before after after2 first hfirst
    have h1 : ∃ con ∈ before ++ first :: after, con.Type_ = DeploymentAvailable :=
      ⟨first, by simp, hfirst⟩
    have h2 : ∃ con ∈ before ++ first :: after2, con.Type_ = DeploymentAvailable :=
      ⟨first, by simp, hfirst⟩
    simp only [PropagateRawStatus, withConditions, propagateAvailable_found st url _ h1,
      propagateAvailable_found st url _ h2]

/-- Witness of C16: a deployment at generation 7 with two available conditions
makes the prior status ready with the new URL, the same as without the second
available condition. -/
theorem PropagateRawStatus_spec_witness :
    PropagateRawStatus priorStatus twiceAvailableDeployment (some "http://basic-ig.example.com") =
        { ObservedGeneration := 7,
          Conditions := [{ Type_ := "Ready", Status := "True" }],
          Annotations := none,
          URL := some "http://basic-ig.example.com" } ∧
      ((PropagateRawStatus priorStatus twiceAvailableDeployment
          (some "http://basic-ig.example.com")).URL = some "http://basic-ig.example.com" ∧
        (PropagateRawStatus priorStatus twiceAvailableDeployment
          (some "http://basic-ig.example.com")).Conditions =
            [{ Type_ := ConditionReady, Status := ConditionTrue }]) ∧
      PropagateRawStatus priorStatus
          (withConditions twiceAvailableDeployment
            ([{ Type_ := "Progressing", Status := "True" }] ++
              { Type_ := "Available", Status := "True" } ::
                [{ Type_ := "Available", Status := "False" }]))
          (some "http://basic-ig.example.com") =
        PropagateRawStatus priorStatus
          (withConditions twiceAvailableDeployment
            ([{ Type_ := "Progressing", Status := "True" }] ++
              { Type_ := "Available", Status := "True" } :: []))
          (some "http://basic-ig.example.com") :=
  have h := PropagateRawStatus_spec priorStatus twiceAvailableDeployment
    (some "http://basic-ig.example.com")
  ⟨by decide,
    h.2.2.1 ⟨{ Type_ := "Available", Status := "True" }, by decide, rfl⟩,
    h.2.2.2.2 [{ Type_ := "Progressing", Status := "True" }]
      [{ Type_ := "Available", Status := "False" }] []
      { Type_ := "Available", Status := "True" } rfl⟩

/-- C14. For every graph and router config for which the serialization of the
graph spec succeeds with text `J`, `createInferenceGraphPodSpec` returns a pod
spec with exactly one container, whose name is the graph's name, whose image
is the router config's image and whose arguments are exactly `--graph-json`
and `J`, and whose affinity is the graph spec's affinity, nil included. On the
basic graph of the test the serialization is the text the test expects. -/
theorem createInferenceGraphPodSpec_container :
    (∀ (c : Constants) (marshal : InferenceGraphSpec → Option String)
        (constructResourceRequirements : InferenceGraph → RouterConfig → ResourceRequirements)
        (graph : InferenceGraph) (config : RouterConfig) (J : String),
        marshal graph.Spec = some J →
        ∃ container,
          createInferenceGraphPodSpec c marshal constructResourceRequirements graph config =
            some { Containers := [container], Affinity := graph.Spec.Affinity } ∧
          container.Name = graph.ObjectMeta.Name ∧ container.Image = config.Image ∧
          container.Args = ["--graph-json", J]) ∧
      jsonMarshal basicGraph.Spec =
        some "\x7b\"nodes\":\x7b\"root\":\x7b\"routerType\":\"Sequence\",\"steps\":[\x7b\"serviceUrl\":\"http://someservice.exmaple.com\"\x7d]\x7d\x7d,\"resources\":\x7b\x7d\x7d" := by
  refine ⟨?_, by decide⟩
  intro c marshal constructResourceRequirements graph config J hJ
  cases hh : headersLookup config.Headers "propagate" with
  | none =>
    rw [createInferenceGraphPodSpec_plain c marshal constructResourceRequirements graph config J
      hJ hh]
    exact ⟨_, rfl, rfl, rfl, rfl⟩
  | some value =>
    rw [createInferenceGraphPodSpec_propagate c marshal constructResourceRequirements graph
      config J value hJ hh]
    exact ⟨_, rfl, rfl, rfl, rfl⟩

/-- Witness of C14: the first scenario of `TestCreateInferenceGraphPodSpec`. -/
theorem createInferenceGraphPodSpec_container_witness :
    createInferenceGraphPodSpec kserveConstants jsonMarshal routerDefaults basicGraph
        testRouterConfig =
      some
        { Containers :=
            [{ Name := "basic-ig",
               Image := "kserve/router:v0.10.0",
               Args := ["--graph-json",
                 "\x7b\"nodes\":\x7b\"root\":\x7b\"routerType\":\"Sequence\",\"steps\":[\x7b\"serviceUrl\":\"http://someservice.exmaple.com\"\x7d]\x7d\x7d,\"resources\":\x7b\x7d\x7d"],
               Resources :=
                 { Limits := [("cpu", "100m"), ("memory", "500Mi")],
                   Requests := [("cpu", "100m"), ("memory", "100Mi")] },
               Env := [] }],
          Affinity := none } ∧
      ∃ container,
        createInferenceGraphPodSpec kserveConstants jsonMarshal routerDefaults basicGraph
            testRouterConfig =
          some { Containers := [container], Affinity := basicGraph.Spec.Affinity } ∧
        container.Name = basicGraph.ObjectMeta.Name ∧ container.Image = testRouterConfig.Image ∧
        container.Args = ["--graph-json",
          "\x7b\"nodes\":\x7b\"root\":\x7b\"routerType\":\"Sequence\",\"steps\":[\x7b\"serviceUrl\":\"http://someservice.exmaple.com\"\x7d]\x7d\x7d,\"resources\":\x7b\x7d\x7d"] :=
  ⟨by decide,
    createInferenceGraphPodSpec_container.1 kserveConstants jsonMarshal routerDefaults basicGraph
      testRouterConfig _ createInferenceGraphPodSpec_container.2⟩

/-- C15. For every graph and router config for which the serialization of the
graph spec succeeds: when the header map has no key "propagate" (the nil map
included) the container's environment variable list is absent; when it has
the key with list `L` (the empty list included) the container has exactly one
environment variable, named by `RouterHeadersPropagateEnvVar`, whose value is
the elements of `L` joined with "," in order. The variable list depends on
the header map through its "propagate" entry alone. -/
theorem createInferenceGraphPodSpec_headers (c : Constants)
    (marshal : InferenceGraphSpec → Option String)
    (constructResourceRequirements : InferenceGraph → RouterConfig → ResourceRequirements)
    (graph : InferenceGraph) (config : RouterConfig) (J : String)
    (hJ : marshal graph.Spec = some J) :
    (headersLookup config.Headers "propagate" = none →
        ∃ container,
          createInferenceGraphPodSpec c marshal constructResourceRequirements graph config =
            some { Containers := [container], Affinity := graph.Spec.Affinity } ∧
          container.Env = []) ∧
      (∀ L, headersLookup config.Headers "propagate" = some L →
        ∃ container,
          createInferenceGraphPodSpec c marshal constructResourceRequirements graph config =
            some { Containers := [container], Affinity := graph.Spec.Affinity } ∧
          container.Env =
            [{ Name := c.RouterHeadersPropagateEnvVar, Value := String.intercalate "," L }]) := by
  constructor
  · intro hh
    rw [createInferenceGraphPodSpec_plain c marshal constructResourceRequirements graph config J
      hJ hh]
    exact ⟨_, rfl, rfl⟩
  · intro L hh
    rw [createInferenceGraphPodSpec_propagate c marshal constructResourceRequirements graph
      config J L hJ hh]
    exact ⟨_, rfl, rfl⟩

/-- Witness of C15: the router configs of `TestCreateInferenceGraphPodSpec`; with
the headers the variable is `PROPAGATE_HEADERS` = "Authorization,Intuit_tid",
with an empty "propagate" list beside another key its value is empty, and
without the key there is no variable. -/
theorem createInferenceGraphPodSpec_headers_witness :
    (∃ container,
        createInferenceGraphPodSpec kserveConstants jsonMarshal routerDefaults basicGraph
            testRouterConfigWithHeaders =
          some { Containers := [container], Affinity := basicGraph.Spec.Affinity } ∧
        container.Env =
          [{ Name := "PROPAGATE_HEADERS",
             Value := String.intercalate "," ["Authorization", "Intuit_tid"] }]) ∧
      String.intercalate "," ["Authorization", "Intuit_tid"] = "Authorization,Intuit_tid" ∧
      (∃ container,
        createInferenceGraphPodSpec kserveConstants jsonMarshal routerDefaults basicGraph
            { testRouterConfig with Headers := some [("trace", ["x-b3"]), ("propagate", [])] } =
          some { Containers := [container], Affinity := basicGraph.Spec.Affinity } ∧
        container.Env = [{ Name := "PROPAGATE_HEADERS", Value := String.intercalate "," [] }]) ∧
      (∃ container,
        createInferenceGraphPodSpec kserveConstants jsonMarshal routerDefaults basicGraph
            { testRouterConfig with Headers := some [("trace", ["x-b3"])] } =
          some { Containers := [container], Affinity := basicGraph.Spec.Affinity } ∧
        container.Env = []) :=
  ⟨(createInferenceGraphPodSpec_headers kserveConstants jsonMarshal routerDefaults basicGraph
      testRouterConfigWithHeaders _ rfl).2 ["Authorization", "Intuit_tid"] (by decide),
    by decide,
    (createInferenceGraphPodSpec_headers kserveConstants jsonMarshal routerDefaults basicGraph
      { testRouterConfig with Headers := some [("trace", ["x-b3"]), ("propagate", [])] } _
      rfl).2 [] (by decide),
    (createInferenceGraphPodSpec_headers kserveConstants jsonMarshal routerDefaults basicGraph
      { testRouterConfig with Headers := some [("trace", ["x-b3"])] } _ rfl).1 (by decide)⟩

/-- C19. In every run of `handleInferenceGraphRawDeployment` the three owner
references are attached (deployment, service, autoscaler, in this order, each
with success) before `Reconcile` is invoked. When the construction of the
reconciler fails, or any of the three attachments does, the handler returns a
non-nil error, `Reconcile` is not invoked and the graph's status is as it was;
when `Reconcile` itself fails, the handler returns a non-nil error and the
graph's status is as it was. -/
theorem handleInferenceGraphRawDeployment_failures {ρ : Type} (c : Constants)
    (marshal : InferenceGraphSpec → Option String)
    (constructResourceRequirements : InferenceGraph → RouterConfig → ResourceRequirements)
    (deps : RawKubeCollaborators ρ) (graph : InferenceGraph) (routerConfig : RouterConfig)
    (res : HandlerResult) (podSpec : Option PodSpec)
    (hres : res = handleInferenceGraphRawDeployment c marshal constructResourceRequirements deps
      graph routerConfig)
    (hpod : podSpec =
      createInferenceGraphPodSpec c marshal constructResourceRequirements graph routerConfig) :
    (∀ e, deps.NewRawKubeReconciler (graphObjectMeta c graph) none podSpec = Except.error e →
        res.err ≠ none ∧ HandlerStep.Reconcile ∉ res.steps ∧ res.graph.Status = graph.Status) ∧
      (∀ r e, deps.NewRawKubeReconciler (graphObjectMeta c graph) none podSpec = Except.ok r →
        deps.SetDeploymentReference (labelledGraph c graph) r = Except.error e →
        res.err ≠ none ∧ HandlerStep.Reconcile ∉ res.steps ∧ res.graph.Status = graph.Status) ∧
      (∀ r r1 e, deps.NewRawKubeReconciler (graphObjectMeta c graph) none podSpec = Except.ok r →
        deps.SetDeploymentReference (labelledGraph c graph) r = Except.ok r1 →
        deps.SetServiceReference (labelledGraph c graph) r1 = Except.error e →
        res.err ≠ none ∧ HandlerStep.Reconcile ∉ res.steps ∧ res.graph.Status = graph.Status) ∧
      (∀ r r1 r2 e,
        deps.NewRawKubeReconciler (graphObjectMeta c graph) none podSpec = Except.ok r →
        deps.SetDeploymentReference (labelledGraph c graph) r = Except.ok r1 →
        deps.SetServiceReference (labelledGraph c graph) r1 = Except.ok r2 →
        deps.SetAutoscalerReferences (labelledGraph c graph) r2 = Except.error e →
        res.err ≠ none ∧ HandlerStep.Reconcile ∉ res.steps ∧ res.graph.Status = graph.Status) ∧
      (∀ r r1 r2 r3 e r4,
        deps.NewRawKubeReconciler (graphObjectMeta c graph) none podSpec = Except.ok r →
        deps.SetDeploymentReference (labelledGraph c graph) r = Except.ok r1 →
        deps.SetServiceReference (labelledGraph c graph) r1 = Except.ok r2 →
        deps.SetAutoscalerReferences (labelledGraph c graph) r2 = Except.ok r3 →
        deps.Reconcile r3 = (Except.error e, r4) →
        res.err ≠ none ∧ res.graph.Status = graph.Status ∧
          HandlerStep.PropagateRawStatus ∉ res.steps) ∧
      (HandlerStep.Reconcile ∈ res.steps →
        ∃ tail, res.steps =
          [HandlerStep.NewRawKubeReconciler podSpec, HandlerStep.SetDeploymentReference,
            HandlerStep.SetServiceReference, HandlerStep.SetAutoscalerReferences,
            HandlerStep.Reconcile] ++ tail) := by
  subst hres hpod
  simp only [graphObjectMeta]
  refine ⟨?_, ?_, ?_, ?_, ?_, ?_⟩
  · intro e h0
    simp [handleInferenceGraphRawDeployment, h0, labelledGraph_status]
  · intro r e h0 h1
    simp [handleInferenceGraphRawDeployment, h0, h1, labelledGraph_status]
  · intro r r1 e h0 h1 h2
    simp [handleInferenceGraphRawDeployment, h0, h1, h2, labelledGraph_status]
  · intro r r1 r2 e h0 h1 h2 h3
    simp [handleInferenceGraphRawDeployment, h0, h1, h2, h3, labelledGraph_status]
  · intro r r1 r2 r3 e r4 h0 h1 h2 h3 h4
    simp [handleInferenceGraphRawDeployment, h0, h1, h2, h3, h4, labelledGraph_status]
  · intro hmem
    simp only [handleInferenceGraphRawDeployment] at hmem ⊢
    cases h0 : deps.NewRawKubeReconciler
        (constructGraphObjectMeta c graph.ObjectMeta.Name graph.ObjectMeta.Namespace
          graph.ObjectMeta.Annotations graph.ObjectMeta.Labels) none
        (createInferenceGraphPodSpec c marshal constructResourceRequirements graph
          routerConfig) with
    | error e => simp [h0] at hmem
    | ok r =>
      cases h1 : deps.SetDeploymentReference (labelledGraph c graph) r with
      | error e => simp [h0, h1] at hmem
      | ok r1 =>
        cases h2 : deps.SetServiceReference (labelledGraph c graph) r1 with
        | error e => simp [h0, h1, h2] at hmem
        | ok r2 =>
          cases h3 : deps.SetAutoscalerReferences (labelledGraph c graph) r2 with
          | error e => simp [h0, h1, h2, h3] at hmem
          | ok r3 =>
            rcases h4 : deps.Reconcile r3 with ⟨out, r4⟩
            cases out with
            | error e => exact ⟨[], by simp [h0, h1, h2, h3, h4]⟩
            | ok d => exact ⟨[HandlerStep.PropagateRawStatus], by simp [h0, h1, h2, h3, h4]⟩

/-- Witness of C19: on the basic graph, a failing service attachment and a
failing `Reconcile` each end the run with an error and the status as it was;
in the first case `Reconcile` is not invoked. -/
theorem handleInferenceGraphRawDeployment_failures_witness :
    ((handleInferenceGraphRawDeployment kserveConstants jsonMarshal routerDefaults
          serviceRejectingCollaborators basicGraph testRouterConfig).err ≠ none ∧
      HandlerStep.Reconcile ∉
        (handleInferenceGraphRawDeployment kserveConstants jsonMarshal routerDefaults
          serviceRejectingCollaborators basicGraph testRouterConfig).steps ∧
      (handleInferenceGraphRawDeployment kserveConstants jsonMarshal routerDefaults
          serviceRejectingCollaborators basicGraph testRouterConfig).graph.Status =
        basicGraph.Status) ∧
    ((handleInferenceGraphRawDeployment kserveConstants jsonMarshal routerDefaults
          reconcileFailingCollaborators basicGraph testRouterConfig).err ≠ none ∧
      (handleInferenceGraphRawDeployment kserveConstants jsonMarshal routerDefaults
          reconcileFailingCollaborators basicGraph testRouterConfig).graph.Status =
        basicGraph.Status ∧
      HandlerStep.PropagateRawStatus ∉
        (handleInferenceGraphRawDeployment kserveConstants jsonMarshal routerDefaults
          reconcileFailingCollaborators basicGraph testRouterConfig).steps) :=
  ⟨(handleInferenceGraphRawDeployment_failures kserveConstants jsonMarshal routerDefaults
      serviceRejectingCollaborators basicGraph testRouterConfig _ _ rfl rfl).2.2.1
      (createInferenceGraphPodSpec kserveConstants jsonMarshal routerDefaults basicGraph
        testRouterConfig)
      (createInferenceGraphPodSpec kserveConstants jsonMarshal routerDefaults basicGraph
        testRouterConfig)
      timeoutError rfl rfl rfl,
    (handleInferenceGraphRawDeployment_failures kserveConstants jsonMarshal routerDefaults
      reconcileFailingCollaborators basicGraph testRouterConfig _ _ rfl rfl).2.2.2.2.1
      (createInferenceGraphPodSpec kserveConstants jsonMarshal routerDefaults basicGraph
        testRouterConfig)
      (createInferenceGraphPodSpec kserveConstants jsonMarshal routerDefaults basicGraph
        testRouterConfig)
      (createInferenceGraphPodSpec kserveConstants jsonMarshal routerDefaults basicGraph
        testRouterConfig)
      (createInferenceGraphPodSpec kserveConstants jsonMarshal routerDefaults basicGraph
        testRouterConfig)
      conflictError
      (createInferenceGraphPodSpec kserveConstants jsonMarshal routerDefaults basicGraph
        testRouterConfig)
      rfl rfl rfl rfl rfl⟩

/-- C17, the code at the failing input. The target-utilization annotation
"80%" is not an integer (`Atoi` reports an error). On a service identity
without scale target, and on a graph identity without graph target
annotation, the policy gets average utilization 0, whereas with the annotation
removed it gets the default 80. -/
theorem createHPA_unparsable_percentage :
    (Atoi "80%").2 ≠ none ∧
      ((createHPA kserveConstants badPercentageServiceMeta (some plainExt)).map
          (fun hpa => hpa.Spec.Metrics) = some (utilizationMetric "cpu" 0) ∧
        (createHPA kserveConstants
          (withoutAnnotationKey badPercentageServiceMeta
            kserveConstants.TargetUtilizationPercentage) (some plainExt)).map
          (fun hpa => hpa.Spec.Metrics) = some (utilizationMetric "cpu" 80)) ∧
      ((createHPA kserveConstants badPercentageGraphMeta none).map
          (fun hpa => hpa.Spec.Metrics) = some (utilizationMetric "cpu" 0) ∧
        (createHPA kserveConstants
          (withoutAnnotationKey badPercentageGraphMeta
            kserveConstants.TargetUtilizationPercentage) none).map
          (fun hpa => hpa.Spec.Metrics) = some (utilizationMetric "cpu" 80)) := by
  decide

/-- C21. On an identity carrying the graph label, `getHPAMetrics` and `createHPA`
do not read the extension spec: both return with a nil extension spec, and for
any two extension specs (nil or not) each returns the same result. On an
identity without the graph label both dereference the extension spec: with nil
there is no result. -/
theorem createHPA_graph_ignores_ext (c : Constants) (m : ObjectMeta) :
    (∀ g, mapLookup m.Labels c.InferenceGraphLabel = some g →
        (∃ metrics, getHPAMetrics c m none = some metrics) ∧
          (∃ hpa, createHPA c m none = some hpa) ∧
          ∀ ext1 ext2 : Option ComponentExtensionSpec,
            getHPAMetrics c m ext1 = getHPAMetrics c m ext2 ∧
              createHPA c m ext1 = createHPA c m ext2) ∧
      (mapLookup m.Labels c.InferenceGraphLabel = none →
        getHPAMetrics c m none = none ∧ createHPA c m none = none) := by
  constructor
  · intro g hlabel
    have hm : ∀ ext, getHPAMetrics c m ext = getHPAMetrics c m none := by
      intro ext
      rw [getHPAMetrics_graph c m ext g hlabel, getHPAMetrics_graph c m none g hlabel]
    have hc : ∀ ext, createHPA c m ext = createHPA c m none := by
      intro ext
      rw [createHPA_graph c m ext g _ hlabel (getHPAMetrics_graph c m ext g hlabel),
        createHPA_graph c m none g _ hlabel (getHPAMetrics_graph c m none g hlabel)]
    refine ⟨⟨_, getHPAMetrics_graph c m none g hlabel⟩,
      ⟨_, createHPA_graph c m none g _ hlabel (getHPAMetrics_graph c m none g hlabel)⟩, ?_⟩
    intro ext1 ext2
    exact ⟨(hm ext1).trans (hm ext2).symm, (hc ext1).trans (hc ext2).symm⟩
  · intro hlabel
    exact ⟨getHPAMetrics_nil c m hlabel, createHPA_nil c m hlabel⟩

/-- Witness of C21: on the graph identity with min-scale "2" and max-scale "7",
the nil extension spec and one with every field set give the same policy,
minimum 2 and maximum 7, on cpu at the default utilization; on a service
identity the nil extension spec gives no result. -/
theorem createHPA_graph_ignores_ext_witness :
    createHPA kserveConstants scaledGraphMeta none =
        some (clampedHPA kserveConstants scaledGraphMeta 2 7 (utilizationMetric "cpu" 80)) ∧
      (getHPAMetrics kserveConstants scaledGraphMeta none =
          getHPAMetrics kserveConstants scaledGraphMeta (some fullExt) ∧
        createHPA kserveConstants scaledGraphMeta none =
          createHPA kserveConstants scaledGraphMeta (some fullExt)) ∧
      (getHPAMetrics kserveConstants annotatedServiceMeta none = none ∧
        createHPA kserveConstants annotatedServiceMeta none = none) :=
  ⟨by decide,
    ((createHPA_graph_ignores_ext kserveConstants scaledGraphMeta).1 "basic-ig"
      (by decide)).2.2 none (some fullExt),
    (createHPA_graph_ignores_ext kserveConstants annotatedServiceMeta).2 (by decide)⟩

/-- C22. `PropagateRawStatus` looks at the type of each deployment condition and
at nothing else of it: two deployments whose condition lists have the same
sequence of types and whose observed generations agree give the same graph
status (from the same prior status and URL), whatever the statuses, reasons
and messages of the conditions and whatever else the deployments hold. In
particular, when the deployment has a condition of type available and no such
condition has status True, the graph still gets the URL and the single
Ready=True condition. -/
theorem PropagateRawStatus_types_only (st : InferenceGraphStatus) (url : Option String) :
    (∀ d1 d2 : Deployment,
        d1.Status.Conditions.map (fun con => con.Type_) =
          d2.Status.Conditions.map (fun con => con.Type_) →
        d1.Status.ObservedGeneration = d2.Status.ObservedGeneration →
        PropagateRawStatus st d1 url = PropagateRawStatus st d2 url) ∧
      (∀ d : Deployment,
        (∃ con ∈ d.Status.Conditions, con.Type_ = DeploymentAvailable) →
        (∀ con ∈ d.Status.Conditions, con.Type_ = DeploymentAvailable →
          con.Status ≠ ConditionTrue) →
        (PropagateRawStatus st d url).URL = url ∧
          (PropagateRawStatus st d url).Conditions =
            [{ Type_ := ConditionReady, Status := ConditionTrue }]) := by
  constructor
  · intro d1 d2 htypes hgen
    simp only [PropagateRawStatus, propagateAvailable_types st url _ _ htypes, hgen]
  · intro d hex _
    simp only [PropagateRawStatus, propagateAvailable_found st url _ hex, and_self]

/-- Witness of C22: a deployment whose only available condition has status
False makes the prior status ready with the new URL, exactly as the deployment
with the same condition types and status True does. -/
theorem PropagateRawStatus_types_only_witness :
    PropagateRawStatus priorStatus unavailableDeployment (some "http://basic-ig.example.com") =
        { ObservedGeneration := 5,
          Conditions := [{ Type_ := "Ready", Status := "True" }],
          Annotations := none,
          URL := some "http://basic-ig.example.com" } ∧
      PropagateRawStatus priorStatus unavailableDeployment (some "http://basic-ig.example.com") =
        PropagateRawStatus priorStatus availableDeployment (some "http://basic-ig.example.com") ∧
      ((PropagateRawStatus priorStatus unavailableDeployment
          (some "http://basic-ig.example.com")).URL = some "http://basic-ig.example.com" ∧
        (PropagateRawStatus priorStatus unavailableDeployment
          (some "http://basic-ig.example.com")).Conditions =
            [{ Type_ := ConditionReady, Status := ConditionTrue }]) :=
  have h := PropagateRawStatus_types_only priorStatus (some "http://basic-ig.example.com")
  ⟨by decide,
    h.1 unavailableDeployment availableDeployment (by decide) (by decide),
    h.2 unavailableDeployment
      ⟨{ Type_ := "Available", Status := "False", Reason := "MinimumReplicasUnavailable" },
        by decide, rfl⟩
      (by decide)⟩

end KServe
